import Mathlib

/-!
The LTV control algorithm of anchorhodler.

A shallow embedding of `internal/anchorhodler.go` (`GetLtv`, `SetLtv`, `CheckLtv`).

The program computes with `decimal.Decimal` values of `github.com/shopspring/decimal`
(an arbitrary precision integer `value` and a base ten exponent `exp`, standing for
`value * 10 ^ exp`).  The operations of that library the program calls are embedded
first, operation by operation, with the library's algorithms: `Mul` and `Sub` are exact,
`Div` is `DivRound` at `DivisionPrecision = 16` fractional digits (round half away from
zero), `Truncate` drops digits toward zero.

Exponents are kept as unbounded integers: the `int32` range of the library's exponent
field (whose overflow makes `Mul` panic) is far outside every amount handled here.

A run of the program is its trace, the calls it makes on its collaborators in order (`Event`),
together with what it returns (`Result`).  The exact rational value of a decimal is `toRat`;
`truncateTo` and `roundTo` are the exact truncation and rounding of rationals against which
the computed amounts are stated.
-/

namespace AnchorHodler

/-! ## The decimal library -/

/-- A `decimal.Decimal`: the number `value * 10 ^ exp`. -/
structure Decimal where
  value : Int
  exp : Int
deriving DecidableEq, Repr

namespace Decimal

/-- The constant `decimal.DivisionPrecision`. -/
def DivisionPrecision : Int := 16

/-- Go `decimal.New(value, exp)`. -/
def New (value : Int) (exp : Int) : Decimal := ⟨value, exp⟩

/-- Go `decimal.NewFromInt(value)`. -/
def NewFromInt (value : Int) : Decimal := ⟨value, 0⟩

/-- Go `decimal.Zero`. -/
def Zero : Decimal := New 0 1

/-- Go `d.rescale(exp)`: the same number at exponent `exp`; digits below the new exponent are
dropped toward zero (`big.Int.Quo`). -/
def rescale (d : Decimal) (exp : Int) : Decimal :=
  if d.exp = exp then d
  else
    let diff : Nat := (exp - d.exp).natAbs
    let expScale : Int := 10 ^ diff
    if exp > d.exp then ⟨Int.tdiv d.value expScale, exp⟩
    else ⟨d.value * expScale, exp⟩

/-- Go `decimal.RescalePair(d1, d2)`: both numbers at the smaller of the two exponents. -/
def RescalePair (d1 d2 : Decimal) : Decimal × Decimal :=
  if d1.exp = d2.exp then (d1, d2)
  else
    let baseScale := min d1.exp d2.exp
    if baseScale ≠ d1.exp then (d1.rescale baseScale, d2)
    else (d1, d2.rescale baseScale)

/-- Go `d.Abs()`. -/
def Abs (d : Decimal) : Decimal := ⟨|d.value|, d.exp⟩

/-- Go `d.Add(d2)`. -/
def Add (d d2 : Decimal) : Decimal :=
  let p := RescalePair d d2
  ⟨p.1.value + p.2.value, p.1.exp⟩

/-- Go `d.Sub(d2)`. -/
def Sub (d d2 : Decimal) : Decimal :=
  let p := RescalePair d d2
  ⟨p.1.value - p.2.value, p.1.exp⟩

/-- Go `d.Mul(d2)`. -/
def Mul (d d2 : Decimal) : Decimal := ⟨d.value * d2.value, d.exp + d2.exp⟩

/-- Go `d.Cmp(d2)`: `-1`, `0` or `1`. -/
def Cmp (d d2 : Decimal) : Int :=
  if d.exp = d2.exp then
    (if d.value < d2.value then -1 else if d.value = d2.value then 0 else 1)
  else
    let p := RescalePair d d2
    if p.1.value < p.2.value then -1 else if p.1.value = p.2.value then 0 else 1

/-- Go `d.Equal(d2)`. -/
def Equal (d d2 : Decimal) : Bool := d.Cmp d2 == 0

/-- Go `d.GreaterThan(d2)`. -/
def GreaterThan (d d2 : Decimal) : Bool := d.Cmp d2 == 1

/-- Go `d.LessThan(d2)`. -/
def LessThan (d d2 : Decimal) : Bool := d.Cmp d2 == -1

/-- Go `d.QuoRem(d2, precision)`: quotient at exponent `-precision` and remainder, by truncated
integer division; `none` is the library's panic on a zero divisor. -/
def QuoRem (d d2 : Decimal) (precision : Int) : Option (Decimal × Decimal) :=
  if d2.value = 0 then none
  else
    let scale := -precision
    let e := d.exp - d2.exp - scale
    if e < 0 then
      let aa := d.value
      let bb := d2.value * 10 ^ (-e).toNat
      some (⟨Int.tdiv aa bb, scale⟩, ⟨Int.tmod aa bb, d.exp⟩)
    else
      let aa := d.value * 10 ^ e.toNat
      let bb := d2.value
      some (⟨Int.tdiv aa bb, scale⟩, ⟨Int.tmod aa bb, scale + d2.exp⟩)

/-- Go `d.DivRound(d2, precision)`: the quotient rounded to `precision` fractional digits, a
remainder of half a unit or more rounding away from zero. -/
def DivRound (d d2 : Decimal) (precision : Int) : Option Decimal :=
  match d.QuoRem d2 precision with
  | none => none
  | some (q, r) =>
    let rv2 : Int := |r.value| * 2
    let r2 : Decimal := ⟨rv2, r.exp + precision⟩
    let c := r2.Cmp d2.Abs
    if c < 0 then some q
    else if Int.sign d.value * Int.sign d2.value < 0 then some (q.Sub (New 1 (-precision)))
    else some (q.Add (New 1 (-precision)))

/-- Go `d.Div(d2)`. -/
def Div (d d2 : Decimal) : Option Decimal := d.DivRound d2 DivisionPrecision

/-- Go `d.Truncate(precision)`. -/
def Truncate (d : Decimal) (precision : Int) : Decimal :=
  if precision ≥ 0 ∧ -precision > d.exp then d.rescale (-precision) else d

end Decimal

/-! ## The collaborators -/

/-- The messages `SetLtv` hands to the transaction: `NewBorrowStableMessage`,
`NewDepositUSTMessage`, `NewRedeemAUSTMessage`, `NewRepayStableMessage`, each with the
amount it is built from. -/
inductive Msg where
  | BorrowStable (amount : Decimal)
  | DepositUST (amount : Decimal)
  | RedeemAUST (amount : Decimal)
  | RepayStable (amount : Decimal)
deriving DecidableEq, Repr

/-- Errors: one returned by a collaborator (`foreign`), `errors.Wrap(cause, context)`, and the
`errors.Errorf("not enough AUST in wallet (balance %s / needed %s)", balance, needed)` of
`SetLtv`, kept with the two quantities its text is formatted from. -/
inductive Err where
  | foreign (text : String)
  | wrap (cause : Err) (context : String)
  | notEnoughAUST (balance needed : Decimal)
deriving DecidableEq, Repr

/-- What a call produces: a value, a returned error, or a panic of the decimal library. -/
inductive Result (α : Type) where
  | ok (a : α)
  | error (err : Err)
  | panic (text : String)
deriving DecidableEq, Repr

/-- The observable calls, in the order they are made: the four reads, the entry into
`SetLtv`, and `ExecuteAndWaitFor` on a transaction with its ordered message list. -/
inductive Event where
  | BorrowLimit
  | BorrowerInfo
  | EpochState
  | Balance
  | SetLtv (ltv : Decimal)
  | ExecuteAndWaitFor (msgs : List Msg)
deriving DecidableEq, Repr

/-- The answers of the chain during one call: `Overseer.BorrowLimit`, the `LoanAmount` of
`Market.BorrowerInfo`, the `ExchangeRate` of `Market.EpochState`, `AUST.Balance`, and the
error (if any) with which `ExecuteAndWaitFor` returns for a message list. -/
structure Chain where
  borrowLimit : Except Err Decimal
  loanAmount : Except Err Decimal
  exchangeRate : Except Err Decimal
  austBalance : Except Err Decimal
  execute : List Msg → Option Err

/-! ## The program -/

/-- Go `AnchorHodler.GetLtv`. -/
def GetLtv (c : Chain) : List Event × Result Decimal :=
  match c.borrowLimit with
  | .error err => ([.BorrowLimit], .error (.wrap err "getting borrowLimit"))
  | .ok borrowLimit =>
    match c.loanAmount with
    | .error err => ([.BorrowLimit, .BorrowerInfo], .error (.wrap err "getting borrower info"))
    | .ok loanAmount =>
      match loanAmount.Div borrowLimit with
      | none => ([.BorrowLimit, .BorrowerInfo], .panic "decimal division by 0")
      | some q => ([.BorrowLimit, .BorrowerInfo], .ok (q.Mul (Decimal.NewFromInt 100)))

/-- The `newLoanAmount` of `SetLtv`: `borrowLimit.Mul(ltv).Div(decimal.NewFromInt(100)).Truncate(6)`. -/
def newLoanAmount (borrowLimit ltv : Decimal) : Option Decimal :=
  match (borrowLimit.Mul ltv).Div (Decimal.NewFromInt 100) with
  | none => none
  | some q => some (q.Truncate 6)

/-- The `austToRepay` of `SetLtv`: `usttorepay.Div(epochState.ExchangeRate).Truncate(6)`. -/
def austToRepay (usttorepay exchangeRate : Decimal) : Option Decimal :=
  match usttorepay.Div exchangeRate with
  | none => none
  | some q => some (q.Truncate 6)

/-- Go `AnchorHodler.SetLtv`. -/
def SetLtv (c : Chain) (ltv : Decimal) : List Event × Result Unit :=
  match c.borrowLimit with
  | .error err => ([.SetLtv ltv, .BorrowLimit], .error (.wrap err "getting borrowLimit"))
  | .ok borrowLimit =>
    match c.loanAmount with
    | .error err =>
      ([.SetLtv ltv, .BorrowLimit, .BorrowerInfo], .error (.wrap err "getting borrower info"))
    | .ok loanAmount =>
      match newLoanAmount borrowLimit ltv with
      | none => ([.SetLtv ltv, .BorrowLimit, .BorrowerInfo], .panic "decimal division by 0")
      | some newLoan =>
        let diff := newLoan.Sub loanAmount
        if diff.Equal Decimal.Zero then
          ([.SetLtv ltv, .BorrowLimit, .BorrowerInfo], .ok ())
        else if diff.GreaterThan Decimal.Zero then
          let msgs := [Msg.BorrowStable diff, Msg.DepositUST diff]
          match c.execute msgs with
          | some err =>
            ([.SetLtv ltv, .BorrowLimit, .BorrowerInfo, .ExecuteAndWaitFor msgs],
              .error (.wrap err "executing multiple transactions to set ltv"))
          | none =>
            ([.SetLtv ltv, .BorrowLimit, .BorrowerInfo, .ExecuteAndWaitFor msgs], .ok ())
        else
          let usttorepay := diff.Abs
          match c.exchangeRate with
          | .error err =>
            ([.SetLtv ltv, .BorrowLimit, .BorrowerInfo, .EpochState],
              .error (.wrap err "getting epoch state of market"))
          | .ok exchangeRate =>
            match austToRepay usttorepay exchangeRate with
            | none =>
              ([.SetLtv ltv, .BorrowLimit, .BorrowerInfo, .EpochState],
                .panic "decimal division by 0")
            | some austToRepay =>
              match c.austBalance with
              | .error err =>
                ([.SetLtv ltv, .BorrowLimit, .BorrowerInfo, .EpochState, .Balance],
                  .error (.wrap err "getting AUST balance"))
              | .ok austBalance =>
                if austBalance.LessThan austToRepay then
                  ([.SetLtv ltv, .BorrowLimit, .BorrowerInfo, .EpochState, .Balance],
                    .error (.notEnoughAUST austBalance austToRepay))
                else
                  let msgs := [Msg.RedeemAUST austToRepay, Msg.RepayStable usttorepay]
                  match c.execute msgs with
                  | some err =>
                    ([.SetLtv ltv, .BorrowLimit, .BorrowerInfo, .EpochState, .Balance,
                        .ExecuteAndWaitFor msgs],
                      .error (.wrap err "executing multiple transactions to set ltv"))
                  | none =>
                    ([.SetLtv ltv, .BorrowLimit, .BorrowerInfo, .EpochState, .Balance,
                        .ExecuteAndWaitFor msgs], .ok ())

/-- Go `AnchorHodler.CheckLtv`, on the decimals `decimal.NewFromFloat` makes of its three
arguments.  `atGet` is the chain as `GetLtv` reads it, `atSet` as `SetLtv` reads it afresh. -/
def CheckLtv (atGet atSet : Chain) (minLtv maxLtv targetLtv : Decimal) :
    List Event × Result Unit :=
  match GetLtv atGet with
  | (t, .error err) => (t, .error (.wrap err "getting currentLtv"))
  | (t, .panic text) => (t, .panic text)
  | (t, .ok currentLtv) =>
    let needProcess := false
    let needProcess := if currentLtv.LessThan minLtv then true else needProcess
    let needProcess := if currentLtv.GreaterThan maxLtv then true else needProcess
    if needProcess then
      match SetLtv atSet targetLtv with
      | (t2, .error err) => (t ++ t2, .error (.wrap err "borrowing to target ltv"))
      | (t2, .panic text) => (t ++ t2, .panic text)
      | (t2, .ok ()) => (t ++ t2, .ok ())
    else (t, .ok ())

/-- The transactions submitted in a trace, in order. -/
def submitted : List Event → List (List Msg)
  | [] => []
  | .ExecuteAndWaitFor msgs :: t => msgs :: submitted t
  | _ :: t => submitted t

/-- A chain on which the four reads answer the given decimals and every submission is
accepted. -/
def Chain.answering (borrowLimit loanAmount exchangeRate austBalance : Decimal) : Chain :=
  ⟨.ok borrowLimit, .ok loanAmount, .ok exchangeRate, .ok austBalance, fun _ => none⟩

/-! ## Exact values and auxiliary definitions -/

/-- The rational number a decimal stands for. -/
def Decimal.toRat (d : Decimal) : ℚ := d.value * (10 : ℚ) ^ d.exp

/-- The integer part of a rational, toward zero. -/
def truncZ (x : ℚ) : ℤ := if 0 ≤ x then ⌊x⌋ else ⌈x⌉

/-- The nearest integer to a rational, halves going away from zero. -/
def roundZ (x : ℚ) : ℤ := if 0 ≤ x then ⌊x + 1 / 2⌋ else ⌈x - 1 / 2⌉

/-- The exact truncation of a rational toward zero to `n` fractional digits. -/
def truncateTo (n : ℕ) (x : ℚ) : ℚ := truncZ (x * 10 ^ n) / 10 ^ n

/-- The rounding of a rational to `n` fractional digits, halves going away from zero. -/
def roundTo (n : ℕ) (x : ℚ) : ℚ := roundZ (x * 10 ^ n) / 10 ^ n

/-- The integer `DivRound` computes from the scaled numerator `aa` and denominator `bb`. -/
def divRoundInt (aa bb : Int) : Int :=
  if |Int.tmod aa bb| * 2 < |bb| then Int.tdiv aa bb
  else if Int.sign aa * Int.sign bb < 0 then Int.tdiv aa bb - 1
  else Int.tdiv aa bb + 1

namespace Decimal

/-- The scaled numerator of `QuoRem` at precision 16. -/
def scaledNum (a b : Decimal) : Int := a.value * 10 ^ (a.exp - b.exp + 16).toNat

/-- The scaled denominator of `QuoRem` at precision 16. -/
def scaledDen (a b : Decimal) : Int := b.value * 10 ^ (-(a.exp - b.exp + 16)).toNat

end Decimal

/-- The last branch of `SetLtv` (redeem and repay) on its own, as a function of the `diff`;
`SetLtv_of_neg` shows `SetLtv` equal to it when `diff` is negative. -/
def contraction (c : Chain) (ltv diff : Decimal) : List Event × Result Unit :=
  match c.exchangeRate with
  | .error err =>
    ([.SetLtv ltv, .BorrowLimit, .BorrowerInfo, .EpochState],
      .error (.wrap err "getting epoch state of market"))
  | .ok exchangeRate =>
    match austToRepay diff.Abs exchangeRate with
    | none =>
      ([.SetLtv ltv, .BorrowLimit, .BorrowerInfo, .EpochState], .panic "decimal division by 0")
    | some aust =>
      match c.austBalance with
      | .error err =>
        ([.SetLtv ltv, .BorrowLimit, .BorrowerInfo, .EpochState, .Balance],
          .error (.wrap err "getting AUST balance"))
      | .ok austBalance =>
        if austBalance.LessThan aust then
          ([.SetLtv ltv, .BorrowLimit, .BorrowerInfo, .EpochState, .Balance],
            .error (.notEnoughAUST austBalance aust))
        else
          match c.execute [.RedeemAUST aust, .RepayStable diff.Abs] with
          | some err =>
            ([.SetLtv ltv, .BorrowLimit, .BorrowerInfo, .EpochState, .Balance,
                .ExecuteAndWaitFor [.RedeemAUST aust, .RepayStable diff.Abs]],
              .error (.wrap err "executing multiple transactions to set ltv"))
          | none =>
            ([.SetLtv ltv, .BorrowLimit, .BorrowerInfo, .EpochState, .Balance,
                .ExecuteAndWaitFor [.RedeemAUST aust, .RepayStable diff.Abs]], .ok ())

open Decimal

/-! ## Lemmas -/

theorem tmod_neg_left (a b : Int) : Int.tmod (-a) b = -Int.tmod a b := by
  rw [Int.tmod_def, Int.tmod_def, Int.neg_tdiv]; ring

theorem tmod_nonneg_of_nonneg {a : Int} (b : Int) (ha : 0 ≤ a) : 0 ≤ Int.tmod a b :=
  Int.tmod_nonneg b ha

theorem tmod_nonpos_of_nonpos {a : Int} (b : Int) (ha : a ≤ 0) : Int.tmod a b ≤ 0 := by
  have h := Int.tmod_nonneg b (show 0 ≤ -a by omega)
  rw [tmod_neg_left] at h
  omega

theorem abs_tmod_lt (a : Int) {b : Int} (hb : b ≠ 0) : |Int.tmod a b| < |b| := by
  have key : ∀ a b : Int, 0 ≤ a → 0 < b → |Int.tmod a b| < |b| := by
    intro a b ha hb
    rw [abs_of_nonneg (Int.tmod_nonneg b ha), abs_of_pos hb]
    exact Int.tmod_lt_of_pos a hb
  have key2 : ∀ a b : Int, 0 < b → |Int.tmod a b| < |b| := by
    intro a b hb
    rcases le_total 0 a with ha | ha
    · exact key a b ha hb
    · have := key (-a) b (by omega) hb
      rwa [tmod_neg_left, abs_neg] at this
  rcases lt_or_gt_of_ne hb with h | h
  · have := key2 a (-b) (by omega)
    rwa [Int.tmod_neg, abs_neg] at this
  · exact key2 a b h

/-- The quotient and remainder of truncated division, read in the rationals: the exact
quotient is the integer quotient plus a fraction of absolute value below one that has the
sign of the exact quotient. -/
theorem tdiv_rat (a : Int) {b : Int} (hb : b ≠ 0) :
    (a : ℚ) / b = Int.tdiv a b + (Int.tmod a b : ℚ) / b ∧
    |(Int.tmod a b : ℚ) / b| < 1 ∧
    (0 ≤ (a : ℚ) / b → 0 ≤ (Int.tmod a b : ℚ) / b) ∧
    ((a : ℚ) / b ≤ 0 → (Int.tmod a b : ℚ) / b ≤ 0) ∧
    (|Int.tmod a b| * 2 < |b| ↔ |(Int.tmod a b : ℚ) / b| * 2 < 1) := by
  have hbq : (b : ℚ) ≠ 0 := by exact_mod_cast hb
  have habs : (0 : ℚ) < |(b : ℚ)| := abs_pos.mpr hbq
  have hlt : |(Int.tmod a b : ℚ)| < |(b : ℚ)| := by
    have := abs_tmod_lt a hb
    exact_mod_cast this
  refine ⟨?_, ?_, ?_, ?_, ?_⟩
  · have h := Int.tmod_add_tdiv a b
    have hq : (a : ℚ) = Int.tmod a b + b * Int.tdiv a b := by exact_mod_cast h.symm
    field_simp
    linarith
  · rw [abs_div, div_lt_one habs]; exact hlt
  · intro hx
    rcases lt_or_gt_of_ne hb with h | h
    · have hbn : (b : ℚ) < 0 := by exact_mod_cast h
      have ha : (a : ℚ) ≤ 0 := by
        by_contra hcon
        push_neg at hcon
        have := div_neg_of_pos_of_neg hcon hbn
        linarith
      have ha' : a ≤ 0 := by exact_mod_cast ha
      have hr : (Int.tmod a b : ℚ) ≤ 0 := by exact_mod_cast tmod_nonpos_of_nonpos b ha'
      exact div_nonneg_of_nonpos hr hbn.le
    · have hbp : (0 : ℚ) < b := by exact_mod_cast h
      have ha : (0 : ℚ) ≤ a := by
        by_contra hcon
        push_neg at hcon
        have := div_neg_of_neg_of_pos hcon hbp
        linarith
      have ha' : 0 ≤ a := by exact_mod_cast ha
      have hr : (0 : ℚ) ≤ Int.tmod a b := by exact_mod_cast tmod_nonneg_of_nonneg b ha'
      exact div_nonneg hr hbp.le
  · intro hx
    rcases lt_or_gt_of_ne hb with h | h
    · have hbn : (b : ℚ) < 0 := by exact_mod_cast h
      have ha : (0 : ℚ) ≤ a := by
        by_contra hcon
        push_neg at hcon
        have := div_pos_of_neg_of_neg hcon hbn
        linarith
      have ha' : 0 ≤ a := by exact_mod_cast ha
      have hr : (0 : ℚ) ≤ Int.tmod a b := by exact_mod_cast tmod_nonneg_of_nonneg b ha'
      exact div_nonpos_of_nonneg_of_nonpos hr hbn.le
    · have hbp : (0 : ℚ) < b := by exact_mod_cast h
      have ha : (a : ℚ) ≤ 0 := by
        by_contra hcon
        push_neg at hcon
        have := div_pos hcon hbp
        linarith
      have ha' : a ≤ 0 := by exact_mod_cast ha
      have hr : (Int.tmod a b : ℚ) ≤ 0 := by exact_mod_cast tmod_nonpos_of_nonpos b ha'
      exact div_nonpos_of_nonpos_of_nonneg hr hbp.le
  · rw [abs_div, div_mul_eq_mul_div, div_lt_one habs]
    constructor
    · intro h; exact_mod_cast h
    · intro h; exact_mod_cast h

/-- Truncated integer division is truncation toward zero of the exact quotient. -/
theorem tdiv_eq_truncZ (a : Int) {b : Int} (hb : b ≠ 0) :
    Int.tdiv a b = truncZ ((a : ℚ) / b) := by
  obtain ⟨h1, h2, h3, h4, -⟩ := tdiv_rat a hb
  rw [abs_lt] at h2
  unfold truncZ
  split_ifs with hx
  · symm
    rw [Int.floor_eq_iff]
    have := h3 hx
    constructor <;> linarith
  · symm
    rw [Int.ceil_eq_iff]
    have := h4 (le_of_not_le hx)
    constructor <;> linarith

theorem sign_mul_sign_neg_iff (a b : Int) (hb : b ≠ 0) :
    Int.sign a * Int.sign b < 0 ↔ (a : ℚ) / b < 0 := by
  have hbq : (b : ℚ) ≠ 0 := by exact_mod_cast hb
  rw [← Int.sign_mul, ← not_le, Int.sign_nonneg, not_le]
  have h : (a : ℚ) / b = (a * b : ℤ) / ((b : ℚ) * b) := by
    push_cast
    field_simp
    ring
  have hpos : (0 : ℚ) < (b : ℚ) * b := mul_self_pos.mpr hbq
  rw [h, div_neg_iff]
  constructor
  · intro hab
    right
    exact ⟨by exact_mod_cast hab, hpos⟩
  · rintro (⟨-, h2⟩ | ⟨h1, -⟩)
    · linarith
    · exact_mod_cast h1

/-- The integer `DivRound` computes is the exact quotient rounded to the nearest integer,
halves going away from zero. -/
theorem divRoundInt_eq_roundZ (a : Int) {b : Int} (hb : b ≠ 0) :
    divRoundInt a b = roundZ ((a : ℚ) / b) := by
  obtain ⟨h1, h2, h3, h4, h5⟩ := tdiv_rat a hb
  have hs := sign_mul_sign_neg_iff a b hb
  rw [abs_lt] at h2
  unfold divRoundInt roundZ
  by_cases hx : 0 ≤ (a : ℚ) / b
  · have hr := h3 hx
    rw [if_pos hx]
    rw [abs_of_nonneg hr] at h5
    by_cases hc : |Int.tmod a b| * 2 < |b|
    · rw [if_pos hc]
      have := h5.mp hc
      symm
      rw [Int.floor_eq_iff]
      constructor <;> linarith
    · rw [if_neg hc, if_neg (by rw [hs]; linarith)]
      have : ¬ ((Int.tmod a b : ℚ) / b * 2 < 1) := fun h => hc (h5.mpr h)
      push_neg at this
      symm
      rw [Int.floor_eq_iff]
      push_cast
      constructor <;> linarith
  · have hx' : (a : ℚ) / b < 0 := lt_of_not_le hx
    have hr := h4 hx'.le
    rw [if_neg hx]
    rw [abs_of_nonpos hr] at h5
    by_cases hc : |Int.tmod a b| * 2 < |b|
    · rw [if_pos hc]
      have := h5.mp hc
      symm
      rw [Int.ceil_eq_iff]
      constructor <;> linarith
    · rw [if_neg hc, if_pos (by rw [hs]; exact hx')]
      have : ¬ (-((Int.tmod a b : ℚ) / b) * 2 < 1) := fun h => hc (h5.mpr h)
      push_neg at this
      symm
      rw [Int.ceil_eq_iff]
      push_cast
      constructor <;> linarith

theorem abs_roundZ_sub_le (x : ℚ) : |(roundZ x : ℚ) - x| ≤ 1 / 2 := by
  unfold roundZ
  rw [abs_le]
  split_ifs with h
  · have h1 := Int.floor_le (x + 1 / 2)
    have h2 := Int.lt_floor_add_one (x + 1 / 2)
    constructor <;> linarith
  · have h1 := Int.le_ceil (x - 1 / 2)
    have h2 := Int.ceil_lt_add_one (x - 1 / 2)
    constructor <;> linarith

theorem roundZ_intCast (n : ℤ) : roundZ (n : ℚ) = n := by
  unfold roundZ
  split_ifs with h
  · rw [Int.floor_eq_iff]; constructor <;> linarith
  · rw [Int.ceil_eq_iff]; constructor <;> linarith

theorem truncZ_intCast (n : ℤ) : truncZ (n : ℚ) = n := by
  unfold truncZ
  split_ifs with h
  · exact Int.floor_intCast n
  · exact Int.ceil_intCast n

theorem abs_truncZ_sub_lt (x : ℚ) : |(truncZ x : ℚ) - x| < 1 := by
  unfold truncZ
  rw [abs_lt]
  split_ifs with h
  · have h1 := Int.floor_le x
    have h2 := Int.lt_floor_add_one x
    constructor <;> linarith
  · have h1 := Int.le_ceil x
    have h2 := Int.ceil_lt_add_one x
    constructor <;> linarith

theorem truncZ_le_of_nonneg {x : ℚ} (h : 0 ≤ x) : (truncZ x : ℚ) ≤ x ∧ 0 ≤ truncZ x := by
  unfold truncZ
  rw [if_pos h]
  exact ⟨Int.floor_le x, Int.floor_nonneg.mpr h⟩

namespace Decimal

theorem ten_zpow_pos (e : Int) : (0 : ℚ) < 10 ^ e := zpow_pos (by norm_num) e

theorem pow_natAbs_mul_zpow {a b : Int} (h : a ≤ b) :
    ((10 : ℚ) ^ (a - b).natAbs) * 10 ^ a = 10 ^ b := by
  have hk : ((a - b).natAbs : ℤ) = b - a := by omega
  rw [← zpow_natCast, hk, ← zpow_add₀ (by norm_num)]
  congr 1
  ring

theorem rescale_exp (d : Decimal) (exp : Int) : (d.rescale exp).exp = exp := by
  unfold rescale
  split_ifs with h1 h2
  · exact h1
  · rfl
  · rfl

theorem toRat_rescale_of_le {d : Decimal} {exp : Int} (h : exp ≤ d.exp) :
    (d.rescale exp).toRat = d.toRat := by
  unfold rescale
  split_ifs with h1 h2
  · rfl
  · omega
  · simp only [toRat]
    push_cast
    rw [mul_assoc, pow_natAbs_mul_zpow h]

theorem rescale_value_of_lt {d : Decimal} {exp : Int} (h : d.exp < exp) :
    (d.rescale exp).value = Int.tdiv d.value (10 ^ (exp - d.exp).natAbs) := by
  unfold rescale
  rw [if_neg (by omega), if_pos (by omega)]

theorem RescalePair_of_eq {a b : Decimal} (h : a.exp = b.exp) : RescalePair a b = (a, b) := by
  unfold RescalePair
  rw [if_pos h]

theorem RescalePair_of_lt {a b : Decimal} (h : a.exp < b.exp) :
    RescalePair a b = (a, b.rescale a.exp) := by
  unfold RescalePair
  rw [if_neg (ne_of_lt h)]
  simp only [min_eq_left h.le, ne_eq, not_true_eq_false, if_false]

theorem RescalePair_of_gt {a b : Decimal} (h : b.exp < a.exp) :
    RescalePair a b = (a.rescale b.exp, b) := by
  unfold RescalePair
  rw [if_neg (ne_of_gt h)]
  simp only [min_eq_right h.le, ne_eq, (ne_of_lt h), not_false_eq_true, if_true]

theorem RescalePair_spec (a b : Decimal) :
    (RescalePair a b).1.exp = (RescalePair a b).2.exp ∧
    (RescalePair a b).1.toRat = a.toRat ∧ (RescalePair a b).2.toRat = b.toRat := by
  rcases lt_trichotomy a.exp b.exp with h | h | h
  · rw [RescalePair_of_lt h]
    exact ⟨(rescale_exp _ _).symm, rfl, toRat_rescale_of_le h.le⟩
  · rw [RescalePair_of_eq h]
    exact ⟨h, rfl, rfl⟩
  · rw [RescalePair_of_gt h]
    exact ⟨rescale_exp _ _, toRat_rescale_of_le h.le, rfl⟩

theorem toRat_Sub (a b : Decimal) : (a.Sub b).toRat = a.toRat - b.toRat := by
  obtain ⟨h1, h2, h3⟩ := RescalePair_spec a b
  rw [← h2, ← h3]
  simp only [Sub, toRat]
  rw [h1]
  push_cast
  ring

theorem toRat_Add (a b : Decimal) : (a.Add b).toRat = a.toRat + b.toRat := by
  obtain ⟨h1, h2, h3⟩ := RescalePair_spec a b
  rw [← h2, ← h3]
  simp only [Add, toRat]
  rw [h1]
  push_cast
  ring

theorem toRat_Mul (a b : Decimal) : (a.Mul b).toRat = a.toRat * b.toRat := by
  simp only [Mul, toRat]
  rw [zpow_add₀ (by norm_num)]
  push_cast
  ring

theorem toRat_Abs (a : Decimal) : a.Abs.toRat = |a.toRat| := by
  simp only [Abs, toRat]
  rw [abs_mul, abs_of_pos (ten_zpow_pos a.exp)]
  push_cast
  rfl

theorem toRat_Zero : Zero.toRat = 0 := by
  simp [Zero, New, toRat]

theorem toRat_NewFromInt (n : Int) : (NewFromInt n).toRat = n := by
  simp [NewFromInt, toRat]

/-- `Cmp` compares the exact values. -/
theorem Cmp_eq (a b : Decimal) :
    a.Cmp b = if a.toRat < b.toRat then -1 else if a.toRat = b.toRat then 0 else 1 := by
  have key : ∀ (v w : Int) (e : Int),
      (if v < w then (-1 : Int) else if v = w then 0 else 1) =
      if (v : ℚ) * 10 ^ e < w * 10 ^ e then -1 else if (v : ℚ) * 10 ^ e = w * 10 ^ e then 0
        else 1 := by
    intro v w e
    have hp := ten_zpow_pos e
    have h1 : ((v : ℚ) * 10 ^ e < w * 10 ^ e) ↔ v < w := by
      rw [mul_lt_mul_right hp]; exact Int.cast_lt
    have h2 : ((v : ℚ) * 10 ^ e = w * 10 ^ e) ↔ v = w := by
      rw [mul_left_inj' hp.ne']; exact Int.cast_inj
    simp only [h1, h2]
  unfold Cmp
  by_cases h : a.exp = b.exp
  · rw [if_pos h]
    simp only [toRat, h]
    exact key _ _ _
  · rw [if_neg h]
    obtain ⟨h1, h2, h3⟩ := RescalePair_spec a b
    rw [← h2, ← h3]
    simp only [toRat, h1]
    exact key _ _ _

theorem LessThan_iff (a b : Decimal) : a.LessThan b = true ↔ a.toRat < b.toRat := by
  unfold LessThan
  rw [Cmp_eq]
  split_ifs with h1 h2
  · simp [h1]
  · simp [h1]
  · simp [h1]

theorem GreaterThan_iff (a b : Decimal) : a.GreaterThan b = true ↔ b.toRat < a.toRat := by
  unfold GreaterThan
  rw [Cmp_eq]
  split_ifs with h1 h2
  · simp; exact h1.le
  · simp [h2]
  · simp
    exact lt_of_le_of_ne (not_lt.mp h1) (Ne.symm h2)

theorem Equal_iff (a b : Decimal) : a.Equal b = true ↔ a.toRat = b.toRat := by
  unfold Equal
  rw [Cmp_eq]
  split_ifs with h1 h2
  · simp; exact h1.ne
  · simp [h2]
  · simp [h2]

/-- `Truncate` is the exact truncation toward zero at the given number of fractional
digits. -/
theorem toRat_Truncate (d : Decimal) (n : ℕ) :
    (d.Truncate n).toRat = truncateTo n d.toRat := by
  have h10 : (10 : ℚ) ≠ 0 := by norm_num
  unfold Truncate truncateTo
  split_ifs with h
  · obtain ⟨-, h2⟩ := h
    have hlt : d.exp < -(n : ℤ) := h2
    have hk : ((-(n : ℤ) - d.exp).natAbs : ℤ) = -(n : ℤ) - d.exp := by omega
    have hpow : (10 : ℤ) ^ (-(n : ℤ) - d.exp).natAbs ≠ 0 := pow_ne_zero _ (by norm_num)
    have hx : d.toRat * 10 ^ n =
        (d.value : ℚ) / ((10 ^ (-(n : ℤ) - d.exp).natAbs : ℤ) : ℚ) := by
      simp only [toRat]
      push_cast
      rw [← zpow_natCast (10 : ℚ) (-(n : ℤ) - d.exp).natAbs, hk, ← zpow_natCast (10 : ℚ) n,
        mul_assoc, ← zpow_add₀ h10, div_eq_mul_inv, ← zpow_neg]
      congr 2
      ring
    rw [hx, ← tdiv_eq_truncZ _ hpow]
    simp only [toRat, rescale_exp, rescale_value_of_lt hlt]
    rw [zpow_neg, zpow_natCast, div_eq_mul_inv]
  · have hge : -(n : ℤ) ≤ d.exp := by
      by_contra hcon
      exact h ⟨by omega, by omega⟩
    have hk : ((d.exp + n).toNat : ℤ) = d.exp + n := by omega
    have hx : d.toRat * 10 ^ n = ((d.value * 10 ^ (d.exp + n).toNat : ℤ) : ℚ) := by
      simp only [toRat]
      push_cast
      rw [← zpow_natCast (10 : ℚ) (d.exp + n).toNat, hk, ← zpow_natCast (10 : ℚ) n,
        mul_assoc, ← zpow_add₀ h10]
    rw [hx, truncZ_intCast, ← hx]
    field_simp

theorem Cmp_neg_iff (a b : Decimal) : a.Cmp b < 0 ↔ a.toRat < b.toRat := by
  rw [Cmp_eq]
  split_ifs with h1 h2
  · simp [h1]
  · simp [h1]
  · simp [h1]

theorem Cmp_remainder_iff (r bv bb e1 e2 : Int)
    (hbb : ((|bb| : ℤ) : ℚ) * 10 ^ e1 = ((|bv| : ℤ) : ℚ) * 10 ^ e2) :
    Cmp ⟨|r| * 2, e1⟩ (Abs ⟨bv, e2⟩) < 0 ↔ |r| * 2 < |bb| := by
  rw [Cmp_neg_iff]
  simp only [toRat, Abs]
  rw [← hbb, mul_lt_mul_right (ten_zpow_pos e1)]
  exact Int.cast_lt

theorem Sub_one_same_exp (v e : Int) : (⟨v, e⟩ : Decimal).Sub (New 1 e) = ⟨v - 1, e⟩ := by
  simp [Sub, New, RescalePair]

theorem Add_one_same_exp (v e : Int) : (⟨v, e⟩ : Decimal).Add (New 1 e) = ⟨v + 1, e⟩ := by
  simp [Add, New, RescalePair]

theorem sign_mul_ten_pow (v : Int) (k : ℕ) : Int.sign (v * 10 ^ k) = Int.sign v := by
  rw [Int.sign_mul, Int.sign_eq_one_of_pos (pow_pos (by norm_num) k), mul_one]

theorem scaledDen_ne_zero {a b : Decimal} (hb : b.value ≠ 0) : scaledDen a b ≠ 0 :=
  mul_ne_zero hb (pow_ne_zero _ (by norm_num))

theorem scaled_quotient (a b : Decimal) :
    ((scaledNum a b : ℤ) : ℚ) / (scaledDen a b : ℤ) = a.toRat / b.toRat * 10 ^ 16 := by
  have h10 : (10 : ℚ) ≠ 0 := by norm_num
  unfold scaledNum scaledDen toRat
  by_cases hb : b.value = 0
  · simp [hb]
  have hbq : (b.value : ℚ) ≠ 0 := by exact_mod_cast hb
  push_cast
  rw [← zpow_natCast (10 : ℚ) (a.exp - b.exp + 16).toNat,
    ← zpow_natCast (10 : ℚ) (-(a.exp - b.exp + 16)).toNat]
  rcases le_or_lt 0 (a.exp - b.exp + 16) with he | he
  · have h1 : ((a.exp - b.exp + 16).toNat : ℤ) = a.exp - b.exp + 16 := by omega
    have h2 : ((-(a.exp - b.exp + 16)).toNat : ℤ) = 0 := by omega
    rw [h1, h2, zpow_zero, mul_one]
    have : (10 : ℚ) ^ (a.exp - b.exp + 16) = 10 ^ a.exp / 10 ^ b.exp * 10 ^ 16 := by
      rw [zpow_add₀ h10, zpow_sub₀ h10]
      norm_cast
    rw [this]
    field_simp
    ring
  · have h1 : ((a.exp - b.exp + 16).toNat : ℤ) = 0 := by omega
    have h2 : ((-(a.exp - b.exp + 16)).toNat : ℤ) = -(a.exp - b.exp + 16) := by omega
    rw [h1, h2, zpow_zero, mul_one]
    have : (10 : ℚ) ^ (-(a.exp - b.exp + 16)) = 10 ^ b.exp / (10 ^ a.exp * 10 ^ 16) := by
      rw [zpow_neg, zpow_add₀ h10, zpow_sub₀ h10]
      norm_cast
      field_simp
    rw [this]
    field_simp
    ring

/-- What `Div` computes, in integers: `divRoundInt` of the scaled numerator and denominator,
at exponent `-16`. -/
theorem Div_eq_divRoundInt (a b : Decimal) (hb : b.value ≠ 0) :
    a.Div b = some ⟨divRoundInt (scaledNum a b) (scaledDen a b), -16⟩ := by
  have h10 : (10 : ℚ) ≠ 0 := by norm_num
  unfold Div DivRound QuoRem DivisionPrecision scaledNum scaledDen divRoundInt
  rw [if_neg hb]
  have hee : a.exp - b.exp - -16 = a.exp - b.exp + 16 := by ring
  simp only [hee]
  rcases lt_or_le (a.exp - b.exp + 16) 0 with he | he
  · have h1 : (a.exp - b.exp + 16).toNat = 0 := by omega
    have h2 : ((-(a.exp - b.exp + 16)).toNat : ℤ) = -(a.exp - b.exp + 16) := by omega
    simp only [if_pos he, h1, pow_zero, mul_one]
    have hc := Cmp_remainder_iff
      (Int.tmod a.value (b.value * 10 ^ (-(a.exp - b.exp + 16)).toNat)) b.value
      (b.value * 10 ^ (-(a.exp - b.exp + 16)).toNat) (a.exp + 16) b.exp (by
        rw [abs_mul, abs_of_pos (pow_pos (by norm_num : (0 : ℤ) < 10) _)]
        push_cast
        rw [← zpow_natCast (10 : ℚ) (-(a.exp - b.exp + 16)).toNat, h2, mul_assoc,
          ← zpow_add₀ h10]
        congr 2
        ring)
    simp only [hc, sign_mul_ten_pow, Sub_one_same_exp, Add_one_same_exp]
    split_ifs <;> rfl
  · have h1 : (-(a.exp - b.exp + 16)).toNat = 0 := by omega
    simp only [if_neg (not_lt.mpr he), h1, pow_zero, mul_one]
    have hc := Cmp_remainder_iff
      (Int.tmod (a.value * 10 ^ (a.exp - b.exp + 16).toNat) b.value) b.value
      b.value (-16 + b.exp + 16) b.exp (by
        congr 2
        ring)
    simp only [hc, sign_mul_ten_pow, Sub_one_same_exp, Add_one_same_exp]
    split_ifs <;> rfl

/-- `Div` returns the exact quotient rounded to 16 fractional digits, halves going away
from zero. -/
theorem Div_spec (a b : Decimal) (hb : b.value ≠ 0) :
    a.Div b = some ⟨roundZ (a.toRat / b.toRat * 10 ^ 16), -16⟩ := by
  rw [Div_eq_divRoundInt a b hb, divRoundInt_eq_roundZ _ (scaledDen_ne_zero hb),
    scaled_quotient]

theorem Div_eq_none_iff (a b : Decimal) : a.Div b = none ↔ b.value = 0 := by
  by_cases hb : b.value = 0
  · simp [Div, DivRound, QuoRem, hb]
  · simp [Div_spec a b hb, hb]

theorem toRat_roundZ_mk (x : ℚ) :
    (⟨roundZ (x * 10 ^ 16), -16⟩ : Decimal).toRat = roundTo 16 x := by
  simp only [toRat, roundTo]
  rw [zpow_neg, div_eq_mul_inv]
  norm_cast

end Decimal

theorem abs_roundTo_sub_le (n : ℕ) (x : ℚ) : |roundTo n x - x| ≤ 1 / 2 / 10 ^ n := by
  have hp : (0 : ℚ) < 10 ^ n := pow_pos (by norm_num) n
  have h := abs_roundZ_sub_le (x * 10 ^ n)
  have e : roundTo n x - x = ((roundZ (x * 10 ^ n) : ℚ) - x * 10 ^ n) / 10 ^ n := by
    unfold roundTo
    field_simp
    ring
  rw [e, abs_div, abs_of_pos hp]
  exact div_le_div_of_nonneg_right h hp.le

theorem roundTo_of_int (n : ℕ) (x : ℚ) (m : ℤ) (h : x * 10 ^ n = m) : roundTo n x = x := by
  have hp : (0 : ℚ) < 10 ^ n := pow_pos (by norm_num) n
  unfold roundTo
  rw [h, roundZ_intCast, ← h]
  field_simp

theorem truncateTo_of_int (n : ℕ) (x : ℚ) (m : ℤ) (h : x * 10 ^ n = m) :
    truncateTo n x = x := by
  have hp : (0 : ℚ) < 10 ^ n := pow_pos (by norm_num) n
  unfold truncateTo
  rw [h, truncZ_intCast, ← h]
  field_simp

/-- Truncating to 6 digits a multiple of `10 ^ (-16)` moves it by at most
`10 ^ (-6) - 10 ^ (-16)`. -/
theorem abs_truncateTo_roundTo_sub_le (x : ℚ) :
    |truncateTo 6 (roundTo 16 x) - roundTo 16 x| ≤ 1 / 10 ^ 6 - 1 / 10 ^ 16 := by
  have hz : roundTo 16 x * 10 ^ 6 = (roundZ (x * 10 ^ 16) : ℚ) / ((10 ^ 10 : ℤ) : ℚ) := by
    unfold roundTo
    push_cast
    field_simp
    ring
  have h10 : (10 ^ 10 : ℤ) ≠ 0 := by norm_num
  obtain ⟨h1, -, -, -, -⟩ := tdiv_rat (roundZ (x * 10 ^ 16)) h10
  have hlt := abs_tmod_lt (roundZ (x * 10 ^ 16)) h10
  have hle : |Int.tmod (roundZ (x * 10 ^ 16)) (10 ^ 10)| ≤ 10 ^ 10 - 1 := by
    rw [abs_of_pos (by norm_num : (0 : ℤ) < 10 ^ 10)] at hlt
    omega
  have hleq : |((Int.tmod (roundZ (x * 10 ^ 16)) (10 ^ 10) : ℤ) : ℚ)| ≤ 10 ^ 10 - 1 := by
    exact_mod_cast hle
  have e : truncateTo 6 (roundTo 16 x) - roundTo 16 x =
      -((Int.tmod (roundZ (x * 10 ^ 16)) (10 ^ 10) : ℤ) : ℚ) / 10 ^ 16 := by
    have e1 : truncateTo 6 (roundTo 16 x) =
        (Int.tdiv (roundZ (x * 10 ^ 16)) (10 ^ 10) : ℚ) / 10 ^ 6 := by
      unfold truncateTo
      rw [hz, ← tdiv_eq_truncZ _ h10]
    have e2 : roundTo 16 x = (roundZ (x * 10 ^ 16) : ℚ) / ((10 ^ 10 : ℤ) : ℚ) / 10 ^ 6 := by
      rw [← hz]
      field_simp
    rw [e1, e2, h1]
    push_cast
    field_simp
    ring
  rw [e, abs_div, abs_neg, abs_of_pos (by norm_num : (0 : ℚ) < 10 ^ 16)]
  rw [div_le_iff₀ (by norm_num : (0 : ℚ) < 10 ^ 16)]
  norm_num at hleq ⊢
  linarith

/-- The truncation of a nonnegative number does not exceed it. -/
theorem truncateTo_le_of_nonneg (n : ℕ) {x : ℚ} (h : 0 ≤ x) : truncateTo n x ≤ x := by
  have hp : (0 : ℚ) < 10 ^ n := pow_pos (by norm_num) n
  unfold truncateTo
  rw [div_le_iff₀ hp]
  exact (truncZ_le_of_nonneg (mul_nonneg h hp.le)).1

theorem roundTo_nonneg (n : ℕ) {x : ℚ} (h : 0 ≤ x) : 0 ≤ roundTo n x := by
  have hp : (0 : ℚ) < 10 ^ n := pow_pos (by norm_num) n
  unfold roundTo roundZ
  rw [if_pos (mul_nonneg h hp.le)]
  apply div_nonneg _ hp.le
  have : 0 ≤ ⌊x * 10 ^ n + 1 / 2⌋ := Int.floor_nonneg.mpr (by positivity)
  exact_mod_cast this

theorem abs_newLoan_sub_le (x : ℚ) : |truncateTo 6 (roundTo 16 x) - x| ≤ 1 / 10 ^ 6 := by
  have h1 := abs_truncateTo_roundTo_sub_le x
  have h2 := abs_roundTo_sub_le 16 x
  rw [abs_le] at h1 h2 ⊢
  norm_num at h1 h2 ⊢
  constructor <;> linarith

theorem truncateTo_nonneg (n : ℕ) {x : ℚ} (h : 0 ≤ x) : 0 ≤ truncateTo n x := by
  have hp : (0 : ℚ) < 10 ^ n := pow_pos (by norm_num) n
  unfold truncateTo
  apply div_nonneg _ hp.le
  have := (truncZ_le_of_nonneg (mul_nonneg h hp.le)).2
  exact_mod_cast this

theorem newLoanAmount_eq (borrowLimit ltv : Decimal) :
    newLoanAmount borrowLimit ltv =
      some ((⟨roundZ (borrowLimit.toRat * ltv.toRat / 100 * 10 ^ 16), -16⟩ : Decimal).Truncate 6)
      := by
  unfold newLoanAmount
  rw [Div_spec _ _ (by simp [NewFromInt]), toRat_Mul, toRat_NewFromInt]
  norm_num

theorem toRat_newLoanAmount {borrowLimit ltv newLoan : Decimal}
    (h : newLoanAmount borrowLimit ltv = some newLoan) :
    newLoan.toRat = truncateTo 6 (roundTo 16 (borrowLimit.toRat * ltv.toRat / 100)) := by
  rw [newLoanAmount_eq] at h
  injection h with h
  rw [← h]
  have := toRat_Truncate ⟨roundZ (borrowLimit.toRat * ltv.toRat / 100 * 10 ^ 16), -16⟩ 6
  rw [toRat_roundZ_mk] at this
  exact_mod_cast this

theorem value_ne_zero_of_toRat_ne_zero {d : Decimal} (h : d.toRat ≠ 0) : d.value ≠ 0 := by
  intro hv
  apply h
  simp [toRat, hv]

theorem austToRepay_eq (usttorepay exchangeRate : Decimal) (h : exchangeRate.value ≠ 0) :
    austToRepay usttorepay exchangeRate =
      some ((⟨roundZ (usttorepay.toRat / exchangeRate.toRat * 10 ^ 16), -16⟩ : Decimal).Truncate 6)
      := by
  unfold austToRepay
  rw [Div_spec _ _ h]

theorem austToRepay_eq_none_iff (usttorepay exchangeRate : Decimal) :
    austToRepay usttorepay exchangeRate = none ↔ exchangeRate.value = 0 := by
  unfold austToRepay
  by_cases h : exchangeRate.value = 0
  · rw [(Div_eq_none_iff _ _).mpr h]
    simp [h]
  · rw [Div_spec _ _ h]
    simp [h]

theorem toRat_austToRepay {usttorepay exchangeRate y : Decimal}
    (h : austToRepay usttorepay exchangeRate = some y) :
    y.toRat = truncateTo 6 (roundTo 16 (usttorepay.toRat / exchangeRate.toRat)) := by
  have hv : exchangeRate.value ≠ 0 := by
    intro hv
    rw [(austToRepay_eq_none_iff _ _).mpr hv] at h
    exact Option.noConfusion h
  rw [austToRepay_eq _ _ hv] at h
  injection h with h
  rw [← h]
  have := toRat_Truncate ⟨roundZ (usttorepay.toRat / exchangeRate.toRat * 10 ^ 16), -16⟩ 6
  rw [toRat_roundZ_mk] at this
  exact_mod_cast this

theorem GetLtv_trace_of_ok {c : Chain} {t : List Event} {v : Decimal}
    (h : GetLtv c = (t, .ok v)) : t = [.BorrowLimit, .BorrowerInfo] := by
  unfold GetLtv at h
  split at h
  · simp at h
  · split at h
    · simp at h
    · split at h
      · simp at h
      · simp only [Prod.mk.injEq] at h
        exact h.1.symm

theorem SetLtv_trace_head (c : Chain) (ltv : Decimal) :
    ∃ t, (SetLtv c ltv).1 = Event.SetLtv ltv :: t := by
  unfold SetLtv
  repeat' split
  all_goals try exact ⟨_, rfl⟩
  all_goals
    simp only []
    repeat' split
  all_goals exact ⟨_, rfl⟩

theorem diff_Equal_Zero_iff (newLoan loanAmount : Decimal) :
    (newLoan.Sub loanAmount).Equal Decimal.Zero = true ↔ newLoan.toRat - loanAmount.toRat = 0 := by
  rw [Equal_iff, toRat_Sub, toRat_Zero]

theorem diff_GreaterThan_Zero_iff (newLoan loanAmount : Decimal) :
    (newLoan.Sub loanAmount).GreaterThan Decimal.Zero = true ↔
      0 < newLoan.toRat - loanAmount.toRat := by
  rw [GreaterThan_iff, toRat_Sub, toRat_Zero]

theorem SetLtv_of_zero {c : Chain} {ltv borrowLimit loanAmount newLoan : Decimal}
    (hb : c.borrowLimit = .ok borrowLimit) (hl : c.loanAmount = .ok loanAmount)
    (hn : newLoanAmount borrowLimit ltv = some newLoan)
    (hd : newLoan.toRat - loanAmount.toRat = 0) :
    SetLtv c ltv = ([.SetLtv ltv, .BorrowLimit, .BorrowerInfo], .ok ()) := by
  unfold SetLtv
  simp only [hb, hl, hn]
  rw [if_pos ((diff_Equal_Zero_iff _ _).mpr hd)]

theorem SetLtv_of_pos {c : Chain} {ltv borrowLimit loanAmount newLoan : Decimal}
    (hb : c.borrowLimit = .ok borrowLimit) (hl : c.loanAmount = .ok loanAmount)
    (hn : newLoanAmount borrowLimit ltv = some newLoan)
    (hd : 0 < newLoan.toRat - loanAmount.toRat) :
    (SetLtv c ltv).1 = [.SetLtv ltv, .BorrowLimit, .BorrowerInfo,
      .ExecuteAndWaitFor [.BorrowStable (newLoan.Sub loanAmount),
        .DepositUST (newLoan.Sub loanAmount)]] ∧
    (SetLtv c ltv).2 =
      match c.execute [.BorrowStable (newLoan.Sub loanAmount),
        .DepositUST (newLoan.Sub loanAmount)] with
      | some err => .error (.wrap err "executing multiple transactions to set ltv")
      | none => .ok () := by
  unfold SetLtv
  simp only [hb, hl, hn]
  rw [if_neg (by rw [diff_Equal_Zero_iff]; exact hd.ne'),
    if_pos ((diff_GreaterThan_Zero_iff _ _).mpr hd)]
  cases c.execute [.BorrowStable (newLoan.Sub loanAmount), .DepositUST (newLoan.Sub loanAmount)]
    <;> exact ⟨rfl, rfl⟩

theorem SetLtv_of_neg {c : Chain} {ltv borrowLimit loanAmount newLoan : Decimal}
    (hb : c.borrowLimit = .ok borrowLimit) (hl : c.loanAmount = .ok loanAmount)
    (hn : newLoanAmount borrowLimit ltv = some newLoan)
    (hd : newLoan.toRat - loanAmount.toRat < 0) :
    SetLtv c ltv = contraction c ltv (newLoan.Sub loanAmount) := by
  unfold SetLtv contraction
  simp only [hb, hl, hn]
  rw [if_neg (by rw [diff_Equal_Zero_iff]; exact hd.ne),
    if_neg (by rw [diff_GreaterThan_Zero_iff]; exact not_lt.mpr hd.le)]

theorem SetLtv_of_borrowLimit_error {c : Chain} {err : Err} (ltv : Decimal)
    (hb : c.borrowLimit = .error err) :
    SetLtv c ltv = ([.SetLtv ltv, .BorrowLimit], .error (.wrap err "getting borrowLimit")) := by
  unfold SetLtv
  simp only [hb]

theorem SetLtv_of_loanAmount_error {c : Chain} {borrowLimit : Decimal} {err : Err}
    (ltv : Decimal) (hb : c.borrowLimit = .ok borrowLimit) (hl : c.loanAmount = .error err) :
    SetLtv c ltv = ([.SetLtv ltv, .BorrowLimit, .BorrowerInfo],
      .error (.wrap err "getting borrower info")) := by
  unfold SetLtv
  simp only [hb, hl]

/-- The contraction branch submits at most once, and once exactly when the exchange rate is
read, the division by it is defined, the balance is read and it covers `austToRepay`. -/
theorem contraction_submitted (c : Chain) (ltv diff : Decimal) :
    (submitted (contraction c ltv diff).1).length ≤ 1 ∧
    ((submitted (contraction c ltv diff).1).length = 1 ↔
      ∃ exchangeRate austBalance aust, c.exchangeRate = .ok exchangeRate ∧
        austToRepay diff.Abs exchangeRate = some aust ∧
        c.austBalance = .ok austBalance ∧ aust.toRat ≤ austBalance.toRat) := by
  cases hr : c.exchangeRate with
  | error err => simp [contraction, hr, submitted]
  | ok exchangeRate =>
    cases ha : austToRepay diff.Abs exchangeRate with
    | none => simp [contraction, hr, ha, submitted]
    | some aust =>
      cases hbal : c.austBalance with
      | error err => simp [contraction, hr, ha, hbal, submitted]
      | ok austBalance =>
        by_cases hlt : austBalance.LessThan aust = true
        · have := (LessThan_iff _ _).mp hlt
          simp [contraction, hr, ha, hbal, submitted, hlt, not_le.mpr this]
        · have hge : aust.toRat ≤ austBalance.toRat := by
            rw [LessThan_iff] at hlt
            exact not_lt.mp hlt
          unfold contraction
          simp only [hr, ha, hbal, hlt]
          cases c.execute [.RedeemAUST aust, .RepayStable diff.Abs] <;>
            simp [submitted] <;> exact ⟨austBalance, aust, ha, rfl, hge⟩

theorem GetLtv_eq {c : Chain} {borrowLimit loanAmount : Decimal}
    (hb : c.borrowLimit = .ok borrowLimit) (hl : c.loanAmount = .ok loanAmount)
    (hv : borrowLimit.value ≠ 0) :
    GetLtv c = ([.BorrowLimit, .BorrowerInfo],
      .ok ((⟨roundZ (loanAmount.toRat / borrowLimit.toRat * 10 ^ 16), -16⟩ : Decimal).Mul
        (NewFromInt 100))) := by
  unfold GetLtv
  simp only [hb, hl, Div_spec _ _ hv]

/-- When the contraction branch returns success it has submitted the redeem and repay
transaction. -/
theorem contraction_ok {c : Chain} {ltv diff : Decimal}
    (h : (contraction c ltv diff).2 = .ok ()) :
    ∃ aust, submitted (contraction c ltv diff).1 = [[.RedeemAUST aust, .RepayStable diff.Abs]]
    := by
  cases hr : c.exchangeRate with
  | error err => simp [contraction, hr] at h
  | ok exchangeRate =>
    cases ha : austToRepay diff.Abs exchangeRate with
    | none => simp [contraction, hr, ha] at h
    | some aust =>
      cases hbal : c.austBalance with
      | error err => simp [contraction, hr, ha, hbal] at h
      | ok austBalance =>
        by_cases hlt : austBalance.LessThan aust = true
        · simp [contraction, hr, ha, hbal, hlt] at h
        · refine ⟨aust, ?_⟩
          unfold contraction
          simp only [hr, ha, hbal, hlt]
          cases c.execute [.RedeemAUST aust, .RepayStable diff.Abs] <;> rfl

/-! ## C1: the band check -/

/-- C1. `CheckLtv` calls `SetLtv(targetLtv)` exactly when the LTV `GetLtv` returned is
strictly below `minLtv` or strictly above `maxLtv`; when it is in the band, bounds included,
`SetLtv` is not called, nothing is submitted and `CheckLtv` returns success after the two
reads of `GetLtv`; when it is outside, the run continues with that of `SetLtv(targetLtv)`. -/
theorem CheckLtv_band (atGet atSet : Chain) (minLtv maxLtv targetLtv currentLtv : Decimal)
    (t : List Event) (h : GetLtv atGet = (t, .ok currentLtv)) :
    (Event.SetLtv targetLtv ∈ (CheckLtv atGet atSet minLtv maxLtv targetLtv).1 ↔
      (currentLtv.toRat < minLtv.toRat ∨ maxLtv.toRat < currentLtv.toRat)) ∧
    (minLtv.toRat ≤ currentLtv.toRat ∧ currentLtv.toRat ≤ maxLtv.toRat →
      CheckLtv atGet atSet minLtv maxLtv targetLtv = ([.BorrowLimit, .BorrowerInfo], .ok ()) ∧
      (∀ ltv, Event.SetLtv ltv ∉ (CheckLtv atGet atSet minLtv maxLtv targetLtv).1) ∧
      submitted (CheckLtv atGet atSet minLtv maxLtv targetLtv).1 = []) ∧
    ((currentLtv.toRat < minLtv.toRat ∨ maxLtv.toRat < currentLtv.toRat) →
      (CheckLtv atGet atSet minLtv maxLtv targetLtv).1 =
        [.BorrowLimit, .BorrowerInfo] ++ (SetLtv atSet targetLtv).1) := by
  have ht := GetLtv_trace_of_ok h
  subst ht
  have hin : minLtv.toRat ≤ currentLtv.toRat ∧ currentLtv.toRat ≤ maxLtv.toRat →
      CheckLtv atGet atSet minLtv maxLtv targetLtv = ([.BorrowLimit, .BorrowerInfo], .ok ()) := by
    rintro ⟨h1, h2⟩
    have hl : currentLtv.LessThan minLtv = false := by
      rw [← Bool.not_eq_true, LessThan_iff]; exact not_lt.mpr h1
    have hg : currentLtv.GreaterThan maxLtv = false := by
      rw [← Bool.not_eq_true, GreaterThan_iff]; exact not_lt.mpr h2
    unfold CheckLtv
    rw [h]
    simp [hl, hg]
  have hout : (currentLtv.toRat < minLtv.toRat ∨ maxLtv.toRat < currentLtv.toRat) →
      (CheckLtv atGet atSet minLtv maxLtv targetLtv).1 =
        [.BorrowLimit, .BorrowerInfo] ++ (SetLtv atSet targetLtv).1 := by
    intro hor
    have hnp : (if currentLtv.GreaterThan maxLtv = true then true
        else if currentLtv.LessThan minLtv = true then true else false) = true := by
      rcases hor with h1 | h2
      · rw [← LessThan_iff] at h1
        simp [h1]
      · rw [← GreaterThan_iff] at h2
        simp [h2]
    unfold CheckLtv
    rw [h]
    simp only [hnp, if_true]
    split <;> simp_all
  refine ⟨?_, ?_, hout⟩
  · constructor
    · intro hmem
      by_contra hcon
      push_neg at hcon
      rw [hin hcon] at hmem
      simp at hmem
    · intro hor
      rw [hout hor]
      obtain ⟨t2, ht2⟩ := SetLtv_trace_head atSet targetLtv
      rw [ht2]
      simp
  · intro hband
    rw [hin hband]
    refine ⟨rfl, ?_, rfl⟩
    intro ltv
    simp

/-- The input of Scenario C satisfies the hypothesis of `CheckLtv_band`: the LTV is 75, in
the band from 65 to 85, and no adjustment is made. -/
theorem CheckLtv_band_witness :
    GetLtv (Chain.answering ⟨1000, 0⟩ ⟨750, 0⟩ ⟨12, -1⟩ ⟨200, 0⟩)
      = ([.BorrowLimit, .BorrowerInfo], .ok ⟨750000000000000000, -16⟩) ∧
    (⟨750000000000000000, -16⟩ : Decimal).toRat = 75 ∧
    CheckLtv (Chain.answering ⟨1000, 0⟩ ⟨750, 0⟩ ⟨12, -1⟩ ⟨200, 0⟩)
      (Chain.answering ⟨1000, 0⟩ ⟨750, 0⟩ ⟨12, -1⟩ ⟨200, 0⟩) ⟨65, 0⟩ ⟨85, 0⟩ ⟨75, 0⟩
      = ([.BorrowLimit, .BorrowerInfo], .ok ()) :=
  ⟨by decide, by norm_num [Decimal.toRat],
    ((CheckLtv_band (Chain.answering ⟨1000, 0⟩ ⟨750, 0⟩ ⟨12, -1⟩ ⟨200, 0⟩)
      (Chain.answering ⟨1000, 0⟩ ⟨750, 0⟩ ⟨12, -1⟩ ⟨200, 0⟩) ⟨65, 0⟩ ⟨85, 0⟩ ⟨75, 0⟩
      ⟨750000000000000000, -16⟩ [.BorrowLimit, .BorrowerInfo] (by decide)).2.1
      (by norm_num [Decimal.toRat])).1⟩

/-! ## C2: the new loan amount -/

/-- C2, as the code has it. The `newLoanAmount` of `SetLtv` is `borrowLimit × ltv / 100`
rounded to 16 fractional digits, halves away from zero (the library's `Div`), and then
truncated toward zero to 6 fractional digits.  It is the exact value truncated to 6 digits
whenever the exact value has at most 16 fractional digits; for a nonnegative exact value it
never exceeds the 16 digit quotient.  The `diff` is `newLoanAmount` minus the loan amount,
exactly. -/
theorem newLoanAmount_rounds_then_truncates (borrowLimit ltv loanAmount : Decimal) :
    ∃ newLoan, newLoanAmount borrowLimit ltv = some newLoan ∧
      newLoan.toRat = truncateTo 6 (roundTo 16 (borrowLimit.toRat * ltv.toRat / 100)) ∧
      ((∃ m : ℤ, borrowLimit.toRat * ltv.toRat / 100 * 10 ^ 16 = m) →
        newLoan.toRat = truncateTo 6 (borrowLimit.toRat * ltv.toRat / 100)) ∧
      (0 ≤ borrowLimit.toRat * ltv.toRat / 100 →
        newLoan.toRat ≤ roundTo 16 (borrowLimit.toRat * ltv.toRat / 100)) ∧
      (newLoan.Sub loanAmount).toRat = newLoan.toRat - loanAmount.toRat := by
  refine ⟨_, newLoanAmount_eq borrowLimit ltv, ?_⟩
  have h := toRat_newLoanAmount (newLoanAmount_eq borrowLimit ltv)
  refine ⟨h, ?_, ?_, toRat_Sub _ _⟩
  · rintro ⟨m, hm⟩
    rw [h, roundTo_of_int 16 _ m hm]
  · intro hx
    rw [h]
    exact truncateTo_le_of_nonneg 6 (roundTo_nonneg 16 hx)

/-- The statement of `newLoanAmount_rounds_then_truncates` at Scenario A: limit 1000 and
target 75 have the exact value 750, and the new loan amount is 750. -/
theorem newLoanAmount_rounds_then_truncates_witness :
    (∃ m : ℤ, (⟨1000, 0⟩ : Decimal).toRat * (⟨75, 0⟩ : Decimal).toRat / 100 * 10 ^ 16 = m) ∧
    ∃ newLoan, newLoanAmount ⟨1000, 0⟩ ⟨75, 0⟩ = some newLoan ∧
      newLoan.toRat = truncateTo 6 ((⟨1000, 0⟩ : Decimal).toRat * (⟨75, 0⟩ : Decimal).toRat / 100)
    := by
  have hm : ∃ m : ℤ,
      (⟨1000, 0⟩ : Decimal).toRat * (⟨75, 0⟩ : Decimal).toRat / 100 * 10 ^ 16 = m :=
    ⟨7500000000000000000, by norm_num [Decimal.toRat]⟩
  obtain ⟨newLoan, h1, -, h3, -⟩ :=
    newLoanAmount_rounds_then_truncates ⟨1000, 0⟩ ⟨75, 0⟩ ⟨600, 0⟩
  exact ⟨hm, newLoan, h1, h3 hm⟩

/-- C2 fails as stated: with a borrow limit of 0.000001 and a target of 99.999999995 the
exact value is 0.00000099999999995, whose truncation to 6 digits is 0, and `SetLtv` computes
the rounded-up 0.000001. -/
theorem newLoanAmount_rounded_up :
    newLoanAmount ⟨1, -6⟩ ⟨99999999995, -9⟩ = some ⟨1, -6⟩ ∧
    (⟨1, -6⟩ : Decimal).toRat = 1 / 1000000 ∧
    (⟨1, -6⟩ : Decimal).toRat * (⟨99999999995, -9⟩ : Decimal).toRat / 100
      = 99999999995 / 100000000000000000 ∧
    truncateTo 6 ((⟨1, -6⟩ : Decimal).toRat * (⟨99999999995, -9⟩ : Decimal).toRat / 100) = 0 := by
  refine ⟨by decide, by norm_num [Decimal.toRat], by norm_num [Decimal.toRat], ?_⟩
  have : (⟨1, -6⟩ : Decimal).toRat * (⟨99999999995, -9⟩ : Decimal).toRat / 100 * 10 ^ 6
      = 99999999995 / 100000000000 := by norm_num [Decimal.toRat]
  unfold truncateTo truncZ
  rw [this, if_pos (by norm_num)]
  have hf : ⌊(99999999995 : ℚ) / 100000000000⌋ = 0 := by
    rw [Int.floor_eq_iff]; norm_num
  rw [hf]
  norm_num

/-! ## C3: expansion -/

/-- C3, as the code has it. When both reads succeed and delta, which is `borrowLimit × ltv /
100` rounded to 16 fractional digits (the library's `Div`), truncated to 6 and lessened by the
loan amount, is strictly positive, `SetLtv` makes the two reads and then one submission, of
the messages borrow delta, deposit delta in this order with the same amount; it reads neither
the exchange rate nor the balance, and that is its only submission.  Delta is the exact value
truncated to 6 digits less the loan amount whenever the exact value has at most 16
fractional digits. -/
theorem SetLtv_expand (c : Chain) (ltv borrowLimit loanAmount : Decimal)
    (hb : c.borrowLimit = .ok borrowLimit) (hl : c.loanAmount = .ok loanAmount)
    (hd : 0 < truncateTo 6 (roundTo 16 (borrowLimit.toRat * ltv.toRat / 100))
      - loanAmount.toRat) :
    ∃ delta : Decimal,
      delta.toRat = truncateTo 6 (roundTo 16 (borrowLimit.toRat * ltv.toRat / 100))
        - loanAmount.toRat ∧
      ((∃ m : ℤ, borrowLimit.toRat * ltv.toRat / 100 * 10 ^ 16 = m) →
        delta.toRat = truncateTo 6 (borrowLimit.toRat * ltv.toRat / 100) - loanAmount.toRat) ∧
      (SetLtv c ltv).1 = [.SetLtv ltv, .BorrowLimit, .BorrowerInfo,
        .ExecuteAndWaitFor [.BorrowStable delta, .DepositUST delta]] ∧
      submitted (SetLtv c ltv).1 = [[.BorrowStable delta, .DepositUST delta]] ∧
      Event.EpochState ∉ (SetLtv c ltv).1 ∧ Event.Balance ∉ (SetLtv c ltv).1 := by
  have hn := newLoanAmount_eq borrowLimit ltv
  have hval := toRat_newLoanAmount hn
  rw [← hval] at hd
  obtain ⟨h1, -⟩ := SetLtv_of_pos hb hl hn hd
  refine ⟨_, ?_, ?_, h1, ?_, ?_, ?_⟩
  · rw [toRat_Sub, hval]
  · rintro ⟨m, hm⟩
    rw [toRat_Sub, hval, roundTo_of_int 16 _ m hm]
  · rw [h1]; rfl
  · rw [h1]; simp
  · rw [h1]; simp

/-- Scenario A satisfies the hypotheses of `SetLtv_expand`: limit 1000, loan 600, target 75
give a delta of 150 and the submission of borrow 150, deposit 150. -/
theorem SetLtv_expand_witness :
    (0 : ℚ) < truncateTo 6
        (roundTo 16 ((⟨1000, 0⟩ : Decimal).toRat * (⟨75, 0⟩ : Decimal).toRat / 100))
      - (⟨600, 0⟩ : Decimal).toRat ∧
    SetLtv (Chain.answering ⟨1000, 0⟩ ⟨600, 0⟩ ⟨12, -1⟩ ⟨200, 0⟩) ⟨75, 0⟩
      = ([.SetLtv ⟨75, 0⟩, .BorrowLimit, .BorrowerInfo,
          .ExecuteAndWaitFor [.BorrowStable ⟨150000000, -6⟩, .DepositUST ⟨150000000, -6⟩]],
        .ok ()) ∧
    (⟨150000000, -6⟩ : Decimal).toRat = 150 ∧
    ∃ delta : Decimal,
      delta.toRat = truncateTo 6
          (roundTo 16 ((⟨1000, 0⟩ : Decimal).toRat * (⟨75, 0⟩ : Decimal).toRat / 100))
        - (⟨600, 0⟩ : Decimal).toRat ∧
      submitted (SetLtv (Chain.answering ⟨1000, 0⟩ ⟨600, 0⟩ ⟨12, -1⟩ ⟨200, 0⟩) ⟨75, 0⟩).1
        = [[.BorrowStable delta, .DepositUST delta]] := by
  have hx : (⟨1000, 0⟩ : Decimal).toRat * (⟨75, 0⟩ : Decimal).toRat / 100 = 750 := by
    norm_num [Decimal.toRat]
  have h16 : (750 : ℚ) * 10 ^ 16 = ((7500000000000000000 : ℤ) : ℚ) := by norm_num
  have h6 : (750 : ℚ) * 10 ^ 6 = ((750000000 : ℤ) : ℚ) := by norm_num
  have hd : (0 : ℚ) < truncateTo 6
        (roundTo 16 ((⟨1000, 0⟩ : Decimal).toRat * (⟨75, 0⟩ : Decimal).toRat / 100))
      - (⟨600, 0⟩ : Decimal).toRat := by
    rw [hx, roundTo_of_int 16 _ _ h16, truncateTo_of_int 6 _ _ h6]
    norm_num [Decimal.toRat]
  obtain ⟨delta, h1, -, -, h4, -⟩ :=
    SetLtv_expand (Chain.answering ⟨1000, 0⟩ ⟨600, 0⟩ ⟨12, -1⟩ ⟨200, 0⟩) ⟨75, 0⟩ ⟨1000, 0⟩
      ⟨600, 0⟩ rfl rfl hd
  exact ⟨hd, by decide, by norm_num [Decimal.toRat], delta, h1, h4⟩

/-- C3 fails as stated: with a limit of 1234.567891, a loan of 600 and a target of
77.322074789 the exact new loan amount is 954.59350799999999999, so the claim's delta is
354.593507 and strictly positive, and `SetLtv` submits borrow and deposit of 354.593508. -/
theorem SetLtv_expand_rounded_delta :
    (⟨1234567891, -6⟩ : Decimal).toRat * (⟨77322074789, -9⟩ : Decimal).toRat / 100
      = 95459350799999999999 / 100000000000000000 ∧
    truncateTo 6 ((⟨1234567891, -6⟩ : Decimal).toRat * (⟨77322074789, -9⟩ : Decimal).toRat / 100)
      - (⟨600, 0⟩ : Decimal).toRat = 354593507 / 1000000 ∧
    (⟨354593508, -6⟩ : Decimal).toRat = 354593508 / 1000000 ∧
    SetLtv (Chain.answering ⟨1234567891, -6⟩ ⟨600, 0⟩ ⟨12, -1⟩ ⟨200, 0⟩) ⟨77322074789, -9⟩
      = ([.SetLtv ⟨77322074789, -9⟩, .BorrowLimit, .BorrowerInfo,
          .ExecuteAndWaitFor [.BorrowStable ⟨354593508, -6⟩, .DepositUST ⟨354593508, -6⟩]],
        .ok ()) := by
  have hx : (⟨1234567891, -6⟩ : Decimal).toRat * (⟨77322074789, -9⟩ : Decimal).toRat / 100
      = 95459350799999999999 / 100000000000000000 := by norm_num [Decimal.toRat]
  refine ⟨hx, ?_, by norm_num [Decimal.toRat], by decide⟩
  have hf : ⌊(95459350799999999999 : ℚ) / 100000000000000000 * 10 ^ 6⌋ = 954593507 := by
    rw [Int.floor_eq_iff]; norm_num
  rw [hx]
  unfold truncateTo truncZ
  rw [if_pos (by norm_num), hf]
  norm_num [Decimal.toRat]

/-! ## C4: contraction -/

/-- C4, as the code has it. Let delta be `borrowLimit × ltv / 100` rounded to 16 fractional
digits (the library's `Div`), truncated to 6 and lessened by the loan amount, and let the
yield tokens to redeem be `|delta| / exchangeRate` rounded to 16 fractional digits and then
truncated to 6.  When all reads succeed, delta is strictly negative, the exchange rate is
positive and the balance is at least the yield tokens to redeem, `SetLtv` makes the four
reads and then one submission, of the messages redeem that amount, repay `|delta|` in this
order, and that is its only submission.  The redeemed amount is not negative, and it is the
exact quotient truncated to 6 digits whenever that quotient has at most 16 fractional
digits. -/
theorem SetLtv_contract (c : Chain)
    (ltv borrowLimit loanAmount exchangeRate austBalance : Decimal)
    (hb : c.borrowLimit = .ok borrowLimit) (hl : c.loanAmount = .ok loanAmount)
    (hd : truncateTo 6 (roundTo 16 (borrowLimit.toRat * ltv.toRat / 100))
      - loanAmount.toRat < 0)
    (hr : c.exchangeRate = .ok exchangeRate) (hpos : 0 < exchangeRate.toRat)
    (hbal : c.austBalance = .ok austBalance)
    (hge : truncateTo 6 (roundTo 16
        (|truncateTo 6 (roundTo 16 (borrowLimit.toRat * ltv.toRat / 100)) - loanAmount.toRat|
          / exchangeRate.toRat)) ≤ austBalance.toRat) :
    ∃ aust repay : Decimal,
      repay.toRat = |truncateTo 6 (roundTo 16 (borrowLimit.toRat * ltv.toRat / 100))
        - loanAmount.toRat| ∧
      aust.toRat = truncateTo 6 (roundTo 16 (repay.toRat / exchangeRate.toRat)) ∧
      0 ≤ aust.toRat ∧
      ((∃ m : ℤ, repay.toRat / exchangeRate.toRat * 10 ^ 16 = m) →
        aust.toRat = truncateTo 6 (repay.toRat / exchangeRate.toRat)) ∧
      (SetLtv c ltv).1 = [.SetLtv ltv, .BorrowLimit, .BorrowerInfo, .EpochState, .Balance,
        .ExecuteAndWaitFor [.RedeemAUST aust, .RepayStable repay]] ∧
      submitted (SetLtv c ltv).1 = [[.RedeemAUST aust, .RepayStable repay]] := by
  have hn := newLoanAmount_eq borrowLimit ltv
  have hval := toRat_newLoanAmount hn
  rw [← hval] at hd hge
  have hv := value_ne_zero_of_toRat_ne_zero hpos.ne'
  have ha := austToRepay_eq
    (((⟨roundZ (borrowLimit.toRat * ltv.toRat / 100 * 10 ^ 16), -16⟩ : Decimal).Truncate
      6).Sub loanAmount).Abs exchangeRate hv
  have haval := toRat_austToRepay ha
  have hrep : (((⟨roundZ (borrowLimit.toRat * ltv.toRat / 100 * 10 ^ 16), -16⟩ :
      Decimal).Truncate 6).Sub loanAmount).Abs.toRat
      = |((⟨roundZ (borrowLimit.toRat * ltv.toRat / 100 * 10 ^ 16), -16⟩ :
        Decimal).Truncate 6).toRat - loanAmount.toRat| := by
    rw [toRat_Abs, toRat_Sub]
  rw [← hrep, ← haval] at hge
  have hlt : austBalance.LessThan
      ((⟨roundZ ((((⟨roundZ (borrowLimit.toRat * ltv.toRat / 100 * 10 ^ 16), -16⟩ :
        Decimal).Truncate 6).Sub loanAmount).Abs.toRat / exchangeRate.toRat * 10 ^ 16),
        -16⟩ : Decimal).Truncate 6) = false := by
    rw [← Bool.not_eq_true, LessThan_iff]; exact not_lt.mpr hge
  have htrace : (SetLtv c ltv).1 = [.SetLtv ltv, .BorrowLimit, .BorrowerInfo, .EpochState,
      .Balance, .ExecuteAndWaitFor
        [.RedeemAUST ((⟨roundZ ((((⟨roundZ (borrowLimit.toRat * ltv.toRat / 100 * 10 ^ 16),
            -16⟩ : Decimal).Truncate 6).Sub loanAmount).Abs.toRat / exchangeRate.toRat
            * 10 ^ 16), -16⟩ : Decimal).Truncate 6),
          .RepayStable (((⟨roundZ (borrowLimit.toRat * ltv.toRat / 100 * 10 ^ 16), -16⟩ :
            Decimal).Truncate 6).Sub loanAmount).Abs]] := by
    rw [SetLtv_of_neg hb hl hn hd]
    unfold contraction
    simp only [hr, ha, hbal, hlt]
    cases c.execute _ <;> rfl
  refine ⟨_, _, ?_, haval, ?_, ?_, htrace, ?_⟩
  · rw [hrep, hval]
  · rw [haval]
    apply truncateTo_nonneg 6 (roundTo_nonneg 16 (div_nonneg _ hpos.le))
    rw [toRat_Abs]
    exact abs_nonneg _
  · rintro ⟨m, hm⟩
    rw [haval, roundTo_of_int 16 _ m hm]
  · rw [htrace]; rfl

/-- Scenario B with a balance of 200 satisfies the hypotheses of `SetLtv_contract`: limit
1000, loan 900, target 75, rate 1.2 give the submission of redeem 125, repay 150. -/
theorem SetLtv_contract_witness :
    truncateTo 6 (roundTo 16 ((⟨1000, 0⟩ : Decimal).toRat * (⟨75, 0⟩ : Decimal).toRat / 100))
      - (⟨900, 0⟩ : Decimal).toRat < 0 ∧
    (0 : ℚ) < (⟨12, -1⟩ : Decimal).toRat ∧
    truncateTo 6 (roundTo 16
        (|truncateTo 6 (roundTo 16 ((⟨1000, 0⟩ : Decimal).toRat * (⟨75, 0⟩ : Decimal).toRat
          / 100)) - (⟨900, 0⟩ : Decimal).toRat| / (⟨12, -1⟩ : Decimal).toRat))
      ≤ (⟨200, 0⟩ : Decimal).toRat ∧
    SetLtv (Chain.answering ⟨1000, 0⟩ ⟨900, 0⟩ ⟨12, -1⟩ ⟨200, 0⟩) ⟨75, 0⟩
      = ([.SetLtv ⟨75, 0⟩, .BorrowLimit, .BorrowerInfo, .EpochState, .Balance,
          .ExecuteAndWaitFor [.RedeemAUST ⟨125000000, -6⟩, .RepayStable ⟨150000000, -6⟩]],
        .ok ()) ∧
    (⟨125000000, -6⟩ : Decimal).toRat = 125 ∧ (⟨150000000, -6⟩ : Decimal).toRat = 150 ∧
    ∃ aust repay : Decimal,
      submitted (SetLtv (Chain.answering ⟨1000, 0⟩ ⟨900, 0⟩ ⟨12, -1⟩ ⟨200, 0⟩) ⟨75, 0⟩).1
        = [[.RedeemAUST aust, .RepayStable repay]] := by
  have hx : (⟨1000, 0⟩ : Decimal).toRat * (⟨75, 0⟩ : Decimal).toRat / 100 = 750 := by
    norm_num [Decimal.toRat]
  have h16 : (750 : ℚ) * 10 ^ 16 = ((7500000000000000000 : ℤ) : ℚ) := by norm_num
  have h6 : (750 : ℚ) * 10 ^ 6 = ((750000000 : ℤ) : ℚ) := by norm_num
  have hnew : truncateTo 6
      (roundTo 16 ((⟨1000, 0⟩ : Decimal).toRat * (⟨75, 0⟩ : Decimal).toRat / 100)) = 750 := by
    rw [hx, roundTo_of_int 16 _ _ h16, truncateTo_of_int 6 _ _ h6]
  have hq : |(750 : ℚ) - (⟨900, 0⟩ : Decimal).toRat| / (⟨12, -1⟩ : Decimal).toRat = 125 := by
    have : (750 : ℚ) - (⟨900, 0⟩ : Decimal).toRat = -150 := by norm_num [Decimal.toRat]
    rw [this, abs_neg, abs_of_pos (by norm_num)]
    norm_num [Decimal.toRat]
  have g16 : (125 : ℚ) * 10 ^ 16 = ((1250000000000000000 : ℤ) : ℚ) := by norm_num
  have g6 : (125 : ℚ) * 10 ^ 6 = ((125000000 : ℤ) : ℚ) := by norm_num
  have hd : truncateTo 6
        (roundTo 16 ((⟨1000, 0⟩ : Decimal).toRat * (⟨75, 0⟩ : Decimal).toRat / 100))
      - (⟨900, 0⟩ : Decimal).toRat < 0 := by
    rw [hnew]; norm_num [Decimal.toRat]
  have hge : truncateTo 6 (roundTo 16
        (|truncateTo 6 (roundTo 16 ((⟨1000, 0⟩ : Decimal).toRat * (⟨75, 0⟩ : Decimal).toRat
          / 100)) - (⟨900, 0⟩ : Decimal).toRat| / (⟨12, -1⟩ : Decimal).toRat))
      ≤ (⟨200, 0⟩ : Decimal).toRat := by
    rw [hnew, hq, roundTo_of_int 16 _ _ g16, truncateTo_of_int 6 _ _ g6]
    norm_num [Decimal.toRat]
  have hp : (0 : ℚ) < (⟨12, -1⟩ : Decimal).toRat := by norm_num [Decimal.toRat]
  obtain ⟨aust, repay, -, -, -, -, -, h6'⟩ :=
    SetLtv_contract (Chain.answering ⟨1000, 0⟩ ⟨900, 0⟩ ⟨12, -1⟩ ⟨200, 0⟩) ⟨75, 0⟩ ⟨1000, 0⟩
      ⟨900, 0⟩ ⟨12, -1⟩ ⟨200, 0⟩ rfl rfl hd rfl hp rfl hge
  exact ⟨hd, hp, hge, by decide, by norm_num [Decimal.toRat], by norm_num [Decimal.toRat],
    aust, repay, h6'⟩

/-- C4 fails as stated: with a limit of 1000, a loan of 756, a target of 75, the exchange
rate 1.200000000000000001 and a balance of 200, the amount to repay is 6 and the claim's
yield tokens to redeem are 4.999999, which the balance covers, and `SetLtv` submits a
redemption of 5.000000. -/
theorem SetLtv_contract_rounded_redeem :
    (⟨6000000, -6⟩ : Decimal).toRat = 6 ∧
    (0 : ℚ) < (⟨1200000000000000001, -18⟩ : Decimal).toRat ∧
    truncateTo 6 ((⟨6000000, -6⟩ : Decimal).toRat
      / (⟨1200000000000000001, -18⟩ : Decimal).toRat) = 4999999 / 1000000 ∧
    (4999999 / 1000000 : ℚ) ≤ (⟨200, 0⟩ : Decimal).toRat ∧
    (⟨5000000, -6⟩ : Decimal).toRat = 5 ∧
    SetLtv (Chain.answering ⟨1000, 0⟩ ⟨756, 0⟩ ⟨1200000000000000001, -18⟩ ⟨200, 0⟩) ⟨75, 0⟩
      = ([.SetLtv ⟨75, 0⟩, .BorrowLimit, .BorrowerInfo, .EpochState, .Balance,
          .ExecuteAndWaitFor [.RedeemAUST ⟨5000000, -6⟩, .RepayStable ⟨6000000, -6⟩]],
        .ok ()) := by
  have hq : (⟨6000000, -6⟩ : Decimal).toRat / (⟨1200000000000000001, -18⟩ : Decimal).toRat
      = 6000000000000000000 / 1200000000000000001 := by norm_num [Decimal.toRat]
  refine ⟨by norm_num [Decimal.toRat], by norm_num [Decimal.toRat], ?_,
    by norm_num [Decimal.toRat], by norm_num [Decimal.toRat], by decide⟩
  have hf : ⌊(6000000000000000000 : ℚ) / 1200000000000000001 * 10 ^ 6⌋ = 4999999 := by
    rw [Int.floor_eq_iff]; norm_num
  rw [hq]
  unfold truncateTo truncZ
  rw [if_pos (by norm_num), hf]
  norm_num

/-! ## C5: the balance guard -/

/-- C5. On the contraction path (all reads succeed, `diff` strictly negative, the division by
the exchange rate defined), `SetLtv` returns the not-enough-AUST error, which carries the
balance and the needed amount, exactly when the balance is strictly below `austToRepay`; it
then stops after the four reads and submits nothing.  With a balance equal to `austToRepay`
the error is not returned and the transaction is submitted. -/
theorem SetLtv_insufficient_balance (c : Chain)
    (ltv borrowLimit loanAmount newLoan exchangeRate austBalance aust : Decimal)
    (hb : c.borrowLimit = .ok borrowLimit) (hl : c.loanAmount = .ok loanAmount)
    (hn : newLoanAmount borrowLimit ltv = some newLoan)
    (hd : newLoan.toRat - loanAmount.toRat < 0)
    (hr : c.exchangeRate = .ok exchangeRate)
    (ha : austToRepay (newLoan.Sub loanAmount).Abs exchangeRate = some aust)
    (hbal : c.austBalance = .ok austBalance) :
    (austBalance.toRat < aust.toRat →
      SetLtv c ltv = ([.SetLtv ltv, .BorrowLimit, .BorrowerInfo, .EpochState, .Balance],
        .error (.notEnoughAUST austBalance aust)) ∧
      submitted (SetLtv c ltv).1 = []) ∧
    ((∃ balance needed, (SetLtv c ltv).2 = .error (.notEnoughAUST balance needed)) →
      austBalance.toRat < aust.toRat) ∧
    (austBalance.toRat = aust.toRat →
      (∀ balance needed, (SetLtv c ltv).2 ≠ .error (.notEnoughAUST balance needed)) ∧
      submitted (SetLtv c ltv).1 =
        [[.RedeemAUST aust, .RepayStable (newLoan.Sub loanAmount).Abs]]) := by
  have hlow : austBalance.toRat < aust.toRat →
      SetLtv c ltv = ([.SetLtv ltv, .BorrowLimit, .BorrowerInfo, .EpochState, .Balance],
        .error (.notEnoughAUST austBalance aust)) := by
    intro hlt
    rw [SetLtv_of_neg hb hl hn hd]
    unfold contraction
    simp only [hr, ha, hbal]
    rw [if_pos ((LessThan_iff _ _).mpr hlt)]
  have hhigh : aust.toRat ≤ austBalance.toRat →
      (∀ balance needed, (SetLtv c ltv).2 ≠ .error (.notEnoughAUST balance needed)) ∧
      submitted (SetLtv c ltv).1 =
        [[.RedeemAUST aust, .RepayStable (newLoan.Sub loanAmount).Abs]] := by
    intro hge
    have hlt : austBalance.LessThan aust = false := by
      rw [← Bool.not_eq_true, LessThan_iff]; exact not_lt.mpr hge
    rw [SetLtv_of_neg hb hl hn hd]
    unfold contraction
    simp only [hr, ha, hbal, hlt]
    cases c.execute [.RedeemAUST aust, .RepayStable (newLoan.Sub loanAmount).Abs]
    · refine ⟨?_, rfl⟩
      intro balance needed h
      simp at h
    · refine ⟨?_, rfl⟩
      intro balance needed h
      simp at h
  refine ⟨fun hlt => ?_, ?_, fun heq => hhigh heq.ge⟩
  · rw [hlow hlt]
    exact ⟨rfl, rfl⟩
  · rintro ⟨balance, needed, h⟩
    by_contra hcon
    exact (hhigh (not_lt.mp hcon)).1 balance needed h

/-- Scenario B with a balance of 100 satisfies the hypotheses of
`SetLtv_insufficient_balance`: 125 are needed, the error is returned and nothing is
submitted. -/
theorem SetLtv_insufficient_balance_witness :
    newLoanAmount ⟨1000, 0⟩ ⟨75, 0⟩ = some ⟨750000000, -6⟩ ∧
    (⟨750000000, -6⟩ : Decimal).toRat - (⟨900, 0⟩ : Decimal).toRat < 0 ∧
    austToRepay ((⟨750000000, -6⟩ : Decimal).Sub ⟨900, 0⟩).Abs ⟨12, -1⟩
      = some ⟨125000000, -6⟩ ∧
    (⟨100, 0⟩ : Decimal).toRat < (⟨125000000, -6⟩ : Decimal).toRat ∧
    (SetLtv (Chain.answering ⟨1000, 0⟩ ⟨900, 0⟩ ⟨12, -1⟩ ⟨100, 0⟩) ⟨75, 0⟩
        = ([.SetLtv ⟨75, 0⟩, .BorrowLimit, .BorrowerInfo, .EpochState, .Balance],
          .error (.notEnoughAUST ⟨100, 0⟩ ⟨125000000, -6⟩)) ∧
      submitted (SetLtv (Chain.answering ⟨1000, 0⟩ ⟨900, 0⟩ ⟨12, -1⟩ ⟨100, 0⟩) ⟨75, 0⟩).1
        = []) :=
  ⟨by decide, by norm_num [Decimal.toRat], by decide, by norm_num [Decimal.toRat],
    (SetLtv_insufficient_balance (Chain.answering ⟨1000, 0⟩ ⟨900, 0⟩ ⟨12, -1⟩ ⟨100, 0⟩)
      ⟨75, 0⟩ ⟨1000, 0⟩ ⟨900, 0⟩ ⟨750000000, -6⟩ ⟨12, -1⟩ ⟨100, 0⟩ ⟨125000000, -6⟩ rfl rfl
      (by decide) (by norm_num [Decimal.toRat]) rfl (by decide) rfl).1
      (by norm_num [Decimal.toRat])⟩

/-! ## C6: the LTV -/

/-- C6, as the code has it. For a positive borrow limit and a nonnegative loan amount, both
read, `GetLtv` returns 100 times the quotient `loanAmount / borrowLimit` rounded to 16
fractional digits, halves away from zero (the library's `Div`).  The result is nonnegative,
within `0.5 × 10 ^ (-14)` of the exact `(loanAmount / borrowLimit) × 100`, and equal to it
whenever the exact quotient has at most 16 fractional digits. -/
theorem GetLtv_rounds_quotient (c : Chain) (borrowLimit loanAmount : Decimal)
    (hb : c.borrowLimit = .ok borrowLimit) (hl : c.loanAmount = .ok loanAmount)
    (hpos : 0 < borrowLimit.toRat) (hnn : 0 ≤ loanAmount.toRat) :
    ∃ v, GetLtv c = ([.BorrowLimit, .BorrowerInfo], .ok v) ∧
      v.toRat = roundTo 16 (loanAmount.toRat / borrowLimit.toRat) * 100 ∧
      0 ≤ v.toRat ∧
      |v.toRat - loanAmount.toRat / borrowLimit.toRat * 100| ≤ 1 / 2 / 10 ^ 14 ∧
      ((∃ m : ℤ, loanAmount.toRat / borrowLimit.toRat * 10 ^ 16 = m) →
        v.toRat = loanAmount.toRat / borrowLimit.toRat * 100) := by
  have hv := value_ne_zero_of_toRat_ne_zero hpos.ne'
  refine ⟨_, GetLtv_eq hb hl hv, ?_⟩
  have h : ((⟨roundZ (loanAmount.toRat / borrowLimit.toRat * 10 ^ 16), -16⟩ : Decimal).Mul
      (NewFromInt 100)).toRat = roundTo 16 (loanAmount.toRat / borrowLimit.toRat) * 100 := by
    rw [toRat_Mul, toRat_roundZ_mk, toRat_NewFromInt]
    norm_num
  rw [h]
  refine ⟨rfl, ?_, ?_, ?_⟩
  · exact mul_nonneg (roundTo_nonneg 16 (div_nonneg hnn hpos.le)) (by norm_num)
  · have hr := abs_roundTo_sub_le 16 (loanAmount.toRat / borrowLimit.toRat)
    rw [abs_le] at hr ⊢
    obtain ⟨h1, h2⟩ := hr
    norm_num at h1 h2 ⊢
    constructor <;> linarith
  · rintro ⟨m, hm⟩
    rw [roundTo_of_int 16 _ m hm]

/-- The input of the claim's witness satisfies the hypotheses of `GetLtv_rounds_quotient`:
limit 1000 and loan 600 give exactly 60. -/
theorem GetLtv_rounds_quotient_witness :
    (0 : ℚ) < (⟨1000, 0⟩ : Decimal).toRat ∧ (0 : ℚ) ≤ (⟨600, 0⟩ : Decimal).toRat ∧
    (∃ m : ℤ, (⟨600, 0⟩ : Decimal).toRat / (⟨1000, 0⟩ : Decimal).toRat * 10 ^ 16 = m) ∧
    ∃ v, GetLtv (Chain.answering ⟨1000, 0⟩ ⟨600, 0⟩ ⟨12, -1⟩ ⟨200, 0⟩)
        = ([.BorrowLimit, .BorrowerInfo], .ok v) ∧
      v.toRat = 60 := by
  have hm : ∃ m : ℤ,
      (⟨600, 0⟩ : Decimal).toRat / (⟨1000, 0⟩ : Decimal).toRat * 10 ^ 16 = m :=
    ⟨6000000000000000, by norm_num [Decimal.toRat]⟩
  obtain ⟨v, h1, -, -, -, h5⟩ :=
    GetLtv_rounds_quotient (Chain.answering ⟨1000, 0⟩ ⟨600, 0⟩ ⟨12, -1⟩ ⟨200, 0⟩)
      ⟨1000, 0⟩ ⟨600, 0⟩ rfl rfl (by norm_num [Decimal.toRat]) (by norm_num [Decimal.toRat])
  refine ⟨by norm_num [Decimal.toRat], by norm_num [Decimal.toRat], hm, v, h1, ?_⟩
  rw [h5 hm]
  norm_num [Decimal.toRat]

/-- C6 fails as stated: with a borrow limit of 3 and a loan of 1, `GetLtv` returns
33.33333333333333, which is not `(1 / 3) × 100`. -/
theorem GetLtv_not_exact :
    GetLtv (Chain.answering ⟨3, 0⟩ ⟨1, 0⟩ ⟨12, -1⟩ ⟨200, 0⟩)
      = ([.BorrowLimit, .BorrowerInfo], .ok ⟨333333333333333300, -16⟩) ∧
    (⟨333333333333333300, -16⟩ : Decimal).toRat = 3333333333333333 / 100000000000000 ∧
    (⟨333333333333333300, -16⟩ : Decimal).toRat
      ≠ (⟨1, 0⟩ : Decimal).toRat / (⟨3, 0⟩ : Decimal).toRat * 100 :=
  ⟨by decide, by norm_num [Decimal.toRat], by norm_num [Decimal.toRat]⟩

/-! ## C7: idempotence -/

/-- C7, as the code has it. When the LTV that `GetLtv` computes from the state equals the
target, the division in `GetLtv` was exact (`loanAmount / borrowLimit` has at most 16
fractional digits) and the loan amount has at most 6 fractional digits, `SetLtv` on the same state computes
a `diff` of zero, submits nothing and returns success after its two reads. -/
theorem SetLtv_idempotent (c : Chain) (ltv borrowLimit loanAmount currentLtv : Decimal)
    (t : List Event)
    (hb : c.borrowLimit = .ok borrowLimit) (hl : c.loanAmount = .ok loanAmount)
    (hpos : 0 < borrowLimit.toRat)
    (hget : GetLtv c = (t, .ok currentLtv)) (heq : currentLtv.toRat = ltv.toRat)
    (hexact : ∃ m : ℤ, loanAmount.toRat / borrowLimit.toRat * 10 ^ 16 = m)
    (hmicro : ∃ m : ℤ, loanAmount.toRat * 10 ^ 6 = m) :
    ∃ newLoan, newLoanAmount borrowLimit ltv = some newLoan ∧
      (newLoan.Sub loanAmount).toRat = 0 ∧
      SetLtv c ltv = ([.SetLtv ltv, .BorrowLimit, .BorrowerInfo], .ok ()) ∧
      submitted (SetLtv c ltv).1 = [] := by
  have hn := newLoanAmount_eq borrowLimit ltv
  have hcur : currentLtv.toRat = loanAmount.toRat / borrowLimit.toRat * 100 := by
    obtain ⟨k, hk⟩ := hexact
    rw [GetLtv_eq hb hl (value_ne_zero_of_toRat_ne_zero hpos.ne')] at hget
    simp only [Prod.mk.injEq, Result.ok.injEq] at hget
    rw [← hget.2, toRat_Mul, toRat_roundZ_mk, toRat_NewFromInt, roundTo_of_int 16 _ k hk]
    norm_num
  have hx : borrowLimit.toRat * ltv.toRat / 100 = loanAmount.toRat := by
    rw [← heq, hcur]
    field_simp
  obtain ⟨m, hm⟩ := hmicro
  have h16 : loanAmount.toRat * 10 ^ 16 = ((m * 10 ^ 10 : ℤ) : ℚ) := by
    push_cast
    rw [← hm]
    ring
  have hval := toRat_newLoanAmount hn
  have hrhs : truncateTo 6 (roundTo 16 (borrowLimit.toRat * ltv.toRat / 100))
      = loanAmount.toRat := by
    rw [hx, roundTo_of_int 16 _ _ h16, truncateTo_of_int 6 _ m hm]
  have hd : ((⟨roundZ (borrowLimit.toRat * ltv.toRat / 100 * 10 ^ 16), -16⟩ :
      Decimal).Truncate 6).toRat - loanAmount.toRat = 0 := by
    rw [hval, hrhs]; ring
  have hs := SetLtv_of_zero hb hl hn hd
  refine ⟨_, hn, ?_, hs, ?_⟩
  · rw [toRat_Sub]; exact hd
  · rw [hs]; rfl

/-- Scenario C satisfies the hypotheses of `SetLtv_idempotent`: limit 1000, loan 750 and
target 75; nothing is submitted. -/
theorem SetLtv_idempotent_witness :
    (0 : ℚ) < (⟨1000, 0⟩ : Decimal).toRat ∧
    GetLtv (Chain.answering ⟨1000, 0⟩ ⟨750, 0⟩ ⟨12, -1⟩ ⟨200, 0⟩)
      = ([.BorrowLimit, .BorrowerInfo], .ok ⟨750000000000000000, -16⟩) ∧
    (⟨750000000000000000, -16⟩ : Decimal).toRat = (⟨75, 0⟩ : Decimal).toRat ∧
    (∃ m : ℤ, (⟨750, 0⟩ : Decimal).toRat / (⟨1000, 0⟩ : Decimal).toRat * 10 ^ 16 = m) ∧
    (∃ m : ℤ, (⟨750, 0⟩ : Decimal).toRat * 10 ^ 6 = m) ∧
    ∃ newLoan, newLoanAmount ⟨1000, 0⟩ ⟨75, 0⟩ = some newLoan ∧
      (newLoan.Sub ⟨750, 0⟩).toRat = 0 ∧
      SetLtv (Chain.answering ⟨1000, 0⟩ ⟨750, 0⟩ ⟨12, -1⟩ ⟨200, 0⟩) ⟨75, 0⟩
        = ([.SetLtv ⟨75, 0⟩, .BorrowLimit, .BorrowerInfo], .ok ()) ∧
      submitted (SetLtv (Chain.answering ⟨1000, 0⟩ ⟨750, 0⟩ ⟨12, -1⟩ ⟨200, 0⟩) ⟨75, 0⟩).1
        = [] :=
  ⟨by norm_num [Decimal.toRat], by decide, by norm_num [Decimal.toRat],
    ⟨7500000000000000, by norm_num [Decimal.toRat]⟩,
    ⟨750000000, by norm_num [Decimal.toRat]⟩,
    SetLtv_idempotent (Chain.answering ⟨1000, 0⟩ ⟨750, 0⟩ ⟨12, -1⟩ ⟨200, 0⟩) ⟨75, 0⟩
      ⟨1000, 0⟩ ⟨750, 0⟩ ⟨750000000000000000, -16⟩ [.BorrowLimit, .BorrowerInfo] rfl rfl
      (by norm_num [Decimal.toRat]) (by decide) (by norm_num [Decimal.toRat])
      ⟨7500000000000000, by norm_num [Decimal.toRat]⟩
      ⟨750000000, by norm_num [Decimal.toRat]⟩⟩

/-- C7 fails as stated. With a borrow limit of 3 and a loan of 1, `GetLtv` returns
33.33333333333333; `SetLtv` with that very target computes a new loan amount of 0.999999, a
`diff` of -0.000001, and submits a redeem and repay transaction.  With a borrow limit of 1
and a loan of 0.0000001, `GetLtv` returns exactly 0.00001; `SetLtv` with that target
truncates the new loan amount to 0 and submits a repayment of 0.0000001. -/
theorem SetLtv_not_idempotent :
    (GetLtv (Chain.answering ⟨3, 0⟩ ⟨1, 0⟩ ⟨12, -1⟩ ⟨200, 0⟩)
        = ([.BorrowLimit, .BorrowerInfo], .ok ⟨333333333333333300, -16⟩) ∧
      newLoanAmount ⟨3, 0⟩ ⟨333333333333333300, -16⟩ = some ⟨999999, -6⟩ ∧
      ((⟨999999, -6⟩ : Decimal).Sub ⟨1, 0⟩).toRat = -1 / 1000000 ∧
      SetLtv (Chain.answering ⟨3, 0⟩ ⟨1, 0⟩ ⟨12, -1⟩ ⟨200, 0⟩) ⟨333333333333333300, -16⟩
        = ([.SetLtv ⟨333333333333333300, -16⟩, .BorrowLimit, .BorrowerInfo, .EpochState,
            .Balance, .ExecuteAndWaitFor [.RedeemAUST ⟨0, -6⟩, .RepayStable ⟨1, -6⟩]],
          .ok ()) ∧
      submitted (SetLtv (Chain.answering ⟨3, 0⟩ ⟨1, 0⟩ ⟨12, -1⟩ ⟨200, 0⟩)
        ⟨333333333333333300, -16⟩).1 = [[.RedeemAUST ⟨0, -6⟩, .RepayStable ⟨1, -6⟩]]) ∧
    (GetLtv (Chain.answering ⟨1, 0⟩ ⟨1, -7⟩ ⟨12, -1⟩ ⟨200, 0⟩)
        = ([.BorrowLimit, .BorrowerInfo], .ok ⟨100000000000, -16⟩) ∧
      (⟨100000000000, -16⟩ : Decimal).toRat
        = (⟨1, -7⟩ : Decimal).toRat / (⟨1, 0⟩ : Decimal).toRat * 100 ∧
      newLoanAmount ⟨1, 0⟩ ⟨100000000000, -16⟩ = some ⟨0, -6⟩ ∧
      submitted (SetLtv (Chain.answering ⟨1, 0⟩ ⟨1, -7⟩ ⟨12, -1⟩ ⟨200, 0⟩)
        ⟨100000000000, -16⟩).1 = [[.RedeemAUST ⟨0, -6⟩, .RepayStable ⟨1, -7⟩]]) :=
  ⟨⟨by decide, by decide,
      by norm_num [Decimal.toRat, Decimal.Sub, Decimal.RescalePair, Decimal.rescale],
      by decide, by decide⟩,
    ⟨by decide, by norm_num [Decimal.toRat], by decide, by decide⟩⟩

/-! ## C8: round trip -/

/-- C8, as the code has it. For a positive borrow limit and a nonnegative target, when
`SetLtv` succeeds the loan amount after the transaction, the current loan amount plus `diff`,
is `newLoanAmount`: it is nonnegative and differs from `borrowLimit × ltv / 100`, the loan
amount that gives the target exactly, by at most 0.000001.  What was submitted moves the loan
by `diff`: nothing when it is zero, a borrow of `diff` when it is positive, a repayment of
`|diff|` when it is negative.  `GetLtv` on the state after the transaction (the same borrow
limit, the new loan amount) returns an LTV that differs from the target by at most
`0.000001 × 100 / borrowLimit + 0.5 × 10 ^ (-14)`, hence by at most 0.000001 when the borrow
limit is at least 101. -/
theorem SetLtv_round_trip (c post : Chain)
    (ltv borrowLimit loanAmount newLoan postLoan : Decimal)
    (hb : c.borrowLimit = .ok borrowLimit) (hl : c.loanAmount = .ok loanAmount)
    (hpos : 0 < borrowLimit.toRat) (ht : 0 ≤ ltv.toRat)
    (hok : (SetLtv c ltv).2 = .ok ())
    (hn : newLoanAmount borrowLimit ltv = some newLoan)
    (hpb : post.borrowLimit = .ok borrowLimit) (hpl : post.loanAmount = .ok postLoan)
    (hpost : postLoan.toRat = loanAmount.toRat + (newLoan.Sub loanAmount).toRat) :
    postLoan.toRat = newLoan.toRat ∧
    0 ≤ newLoan.toRat ∧
    |newLoan.toRat - borrowLimit.toRat * ltv.toRat / 100| ≤ 1 / 10 ^ 6 ∧
    (((newLoan.Sub loanAmount).toRat = 0 ∧ submitted (SetLtv c ltv).1 = []) ∨
      (0 < (newLoan.Sub loanAmount).toRat ∧ submitted (SetLtv c ltv).1 =
        [[.BorrowStable (newLoan.Sub loanAmount), .DepositUST (newLoan.Sub loanAmount)]]) ∨
      ((newLoan.Sub loanAmount).toRat < 0 ∧ ∃ aust, submitted (SetLtv c ltv).1 =
        [[.RedeemAUST aust, .RepayStable (newLoan.Sub loanAmount).Abs]])) ∧
    ∃ v, GetLtv post = ([.BorrowLimit, .BorrowerInfo], .ok v) ∧
      |v.toRat - ltv.toRat| ≤ 1 / 10 ^ 6 * 100 / borrowLimit.toRat + 1 / 2 / 10 ^ 14 ∧
      (101 ≤ borrowLimit.toRat → |v.toRat - ltv.toRat| ≤ 1 / 10 ^ 6) := by
  have hval := toRat_newLoanAmount hn
  have hbound := abs_newLoan_sub_le (borrowLimit.toRat * ltv.toRat / 100)
  rw [← hval] at hbound
  have hpl' : postLoan.toRat = newLoan.toRat := by
    rw [hpost, toRat_Sub]; ring
  refine ⟨hpl', ?_, hbound, ?_, ?_⟩
  · rw [hval]
    exact truncateTo_nonneg 6 (roundTo_nonneg 16 (by positivity))
  · rw [toRat_Sub]
    rcases lt_trichotomy (newLoan.toRat - loanAmount.toRat) 0 with h | h | h
    · right; right
      refine ⟨h, ?_⟩
      rw [SetLtv_of_neg hb hl hn h] at hok ⊢
      exact contraction_ok hok
    · left
      refine ⟨h, ?_⟩
      rw [SetLtv_of_zero hb hl hn h]; rfl
    · right; left
      refine ⟨h, ?_⟩
      rw [(SetLtv_of_pos hb hl hn h).1]; rfl
  · have hv := value_ne_zero_of_toRat_ne_zero hpos.ne'
    refine ⟨_, GetLtv_eq hpb hpl hv, ?_⟩
    have hvv : ((⟨roundZ (postLoan.toRat / borrowLimit.toRat * 10 ^ 16), -16⟩ : Decimal).Mul
        (NewFromInt 100)).toRat = roundTo 16 (postLoan.toRat / borrowLimit.toRat) * 100 := by
      rw [toRat_Mul, toRat_roundZ_mk, toRat_NewFromInt]
      norm_num
    rw [hvv, hpl']
    have h100 : (0 : ℚ) < 100 / borrowLimit.toRat := div_pos (by norm_num) hpos
    have e : newLoan.toRat / borrowLimit.toRat * 100 - ltv.toRat
        = (newLoan.toRat - borrowLimit.toRat * ltv.toRat / 100) * (100 / borrowLimit.toRat)
        := by
      field_simp
    have hexact : |newLoan.toRat / borrowLimit.toRat * 100 - ltv.toRat|
        ≤ 1 / 10 ^ 6 * 100 / borrowLimit.toRat := by
      have hm := mul_le_mul_of_nonneg_right hbound h100.le
      rw [e, abs_mul, abs_of_pos h100]
      calc _ ≤ 1 / 10 ^ 6 * (100 / borrowLimit.toRat) := hm
        _ = 1 / 10 ^ 6 * 100 / borrowLimit.toRat := by ring
    have hround := abs_roundTo_sub_le 16 (newLoan.toRat / borrowLimit.toRat)
    have hgen : |roundTo 16 (newLoan.toRat / borrowLimit.toRat) * 100 - ltv.toRat|
        ≤ 1 / 10 ^ 6 * 100 / borrowLimit.toRat + 1 / 2 / 10 ^ 14 := by
      rw [abs_le] at hround hexact ⊢
      obtain ⟨r1, r2⟩ := hround
      obtain ⟨x1, x2⟩ := hexact
      norm_num at r1 r2 ⊢
      constructor <;> linarith
    refine ⟨hgen, fun h101 => ?_⟩
    have hdiv : 1 / 10 ^ 6 * 100 / borrowLimit.toRat ≤ 1 / 10 ^ 6 * 100 / 101 :=
      div_le_div_of_nonneg_left (by norm_num) (by norm_num) h101
    have hsum : 1 / 10 ^ 6 * 100 / borrowLimit.toRat + 1 / 2 / 10 ^ 14 ≤ (1 : ℚ) / 10 ^ 6 := by
      have : (1 : ℚ) / 10 ^ 6 * 100 / 101 + 1 / 2 / 10 ^ 14 ≤ 1 / 10 ^ 6 := by norm_num
      linarith
    exact le_trans hgen hsum

/-- Scenario A satisfies the hypotheses of `SetLtv_round_trip`: limit 1000, loan 600 and
target 75; `SetLtv` succeeds, the loan becomes 750 and `GetLtv` then returns the target
within 0.000001. -/
theorem SetLtv_round_trip_witness :
    (0 : ℚ) < (⟨1000, 0⟩ : Decimal).toRat ∧ (0 : ℚ) ≤ (⟨75, 0⟩ : Decimal).toRat ∧
    (SetLtv (Chain.answering ⟨1000, 0⟩ ⟨600, 0⟩ ⟨12, -1⟩ ⟨200, 0⟩) ⟨75, 0⟩).2 = .ok () ∧
    newLoanAmount ⟨1000, 0⟩ ⟨75, 0⟩ = some ⟨750000000, -6⟩ ∧
    (⟨750000000, -6⟩ : Decimal).toRat
      = (⟨600, 0⟩ : Decimal).toRat + ((⟨750000000, -6⟩ : Decimal).Sub ⟨600, 0⟩).toRat ∧
    (101 : ℚ) ≤ (⟨1000, 0⟩ : Decimal).toRat ∧
    ∃ v, GetLtv (Chain.answering ⟨1000, 0⟩ ⟨750000000, -6⟩ ⟨12, -1⟩ ⟨200, 0⟩)
        = ([.BorrowLimit, .BorrowerInfo], .ok v) ∧
      |v.toRat - (⟨75, 0⟩ : Decimal).toRat| ≤ 1 / 10 ^ 6 := by
  have hpost : (⟨750000000, -6⟩ : Decimal).toRat
      = (⟨600, 0⟩ : Decimal).toRat + ((⟨750000000, -6⟩ : Decimal).Sub ⟨600, 0⟩).toRat := by
    norm_num [Decimal.toRat, Decimal.Sub, Decimal.RescalePair, Decimal.rescale]
  have h101 : (101 : ℚ) ≤ (⟨1000, 0⟩ : Decimal).toRat := by norm_num [Decimal.toRat]
  obtain ⟨-, -, -, -, v, h1, -, h3⟩ :=
    SetLtv_round_trip (Chain.answering ⟨1000, 0⟩ ⟨600, 0⟩ ⟨12, -1⟩ ⟨200, 0⟩)
      (Chain.answering ⟨1000, 0⟩ ⟨750000000, -6⟩ ⟨12, -1⟩ ⟨200, 0⟩) ⟨75, 0⟩
      ⟨1000, 0⟩ ⟨600, 0⟩ ⟨750000000, -6⟩ ⟨750000000, -6⟩ rfl rfl
      (by norm_num [Decimal.toRat]) (by norm_num [Decimal.toRat]) (by decide) (by decide)
      rfl rfl hpost
  exact ⟨by norm_num [Decimal.toRat], by norm_num [Decimal.toRat], by decide, by decide,
    hpost, h101, v, h1, h3 h101⟩

/-- C8 fails as stated: with a borrow limit of 12.345678, no loan and a target of 75,
`SetLtv` succeeds and borrows 9.259258, within 0.000001 of the exact 9.2592585; `GetLtv` on
the state after the transaction returns 74.99999594999967, more than 0.000001 away from the
target. -/
theorem GetLtv_after_SetLtv_off_target :
    SetLtv (Chain.answering ⟨12345678, -6⟩ ⟨0, 0⟩ ⟨12, -1⟩ ⟨200, 0⟩) ⟨75, 0⟩
      = ([.SetLtv ⟨75, 0⟩, .BorrowLimit, .BorrowerInfo,
          .ExecuteAndWaitFor [.BorrowStable ⟨9259258, -6⟩, .DepositUST ⟨9259258, -6⟩]],
        .ok ()) ∧
    (⟨12345678, -6⟩ : Decimal).toRat * (⟨75, 0⟩ : Decimal).toRat / 100
      - (⟨9259258, -6⟩ : Decimal).toRat = 5 / 10000000 ∧
    GetLtv (Chain.answering ⟨12345678, -6⟩ ⟨9259258, -6⟩ ⟨12, -1⟩ ⟨200, 0⟩)
      = ([.BorrowLimit, .BorrowerInfo], .ok ⟨749999959499996700, -16⟩) ∧
    (1 : ℚ) / 10 ^ 6
      < (⟨75, 0⟩ : Decimal).toRat - (⟨749999959499996700, -16⟩ : Decimal).toRat :=
  ⟨by decide, by norm_num [Decimal.toRat], by decide, by norm_num [Decimal.toRat]⟩

/-! ## C9: the number of submissions -/

/-- C9, as the code has it. `SetLtv` submits at most one transaction per call.  When the
borrow limit or the loan amount cannot be read it submits none.  When both are read: none if
`diff` is zero; exactly one if `diff` is positive; and if `diff` is negative, exactly one when
the exchange rate is read, the division by it is defined, the balance is read and it covers
`austToRepay`, and none otherwise. -/
theorem SetLtv_submitted_count (c : Chain) (ltv : Decimal) :
    (submitted (SetLtv c ltv).1).length ≤ 1 ∧
    (((∀ borrowLimit, c.borrowLimit ≠ .ok borrowLimit) ∨
        (∀ loanAmount, c.loanAmount ≠ .ok loanAmount)) →
      (submitted (SetLtv c ltv).1).length = 0) ∧
    (∀ borrowLimit loanAmount newLoan,
      c.borrowLimit = .ok borrowLimit → c.loanAmount = .ok loanAmount →
      newLoanAmount borrowLimit ltv = some newLoan →
      (newLoan.toRat - loanAmount.toRat = 0 → (submitted (SetLtv c ltv).1).length = 0) ∧
      (0 < newLoan.toRat - loanAmount.toRat → (submitted (SetLtv c ltv).1).length = 1) ∧
      (newLoan.toRat - loanAmount.toRat < 0 →
        ((submitted (SetLtv c ltv).1).length = 1 ↔
          ∃ exchangeRate austBalance aust, c.exchangeRate = .ok exchangeRate ∧
            austToRepay (newLoan.Sub loanAmount).Abs exchangeRate = some aust ∧
            c.austBalance = .ok austBalance ∧ aust.toRat ≤ austBalance.toRat) ∧
        ((submitted (SetLtv c ltv).1).length ≠ 1 → (submitted (SetLtv c ltv).1).length = 0)))
    := by
  have hreads : ∀ borrowLimit loanAmount newLoan,
      c.borrowLimit = .ok borrowLimit → c.loanAmount = .ok loanAmount →
      newLoanAmount borrowLimit ltv = some newLoan →
      (newLoan.toRat - loanAmount.toRat = 0 → (submitted (SetLtv c ltv).1).length = 0) ∧
      (0 < newLoan.toRat - loanAmount.toRat → (submitted (SetLtv c ltv).1).length = 1) ∧
      (newLoan.toRat - loanAmount.toRat < 0 →
        ((submitted (SetLtv c ltv).1).length = 1 ↔
          ∃ exchangeRate austBalance aust, c.exchangeRate = .ok exchangeRate ∧
            austToRepay (newLoan.Sub loanAmount).Abs exchangeRate = some aust ∧
            c.austBalance = .ok austBalance ∧ aust.toRat ≤ austBalance.toRat) ∧
        ((submitted (SetLtv c ltv).1).length ≠ 1 →
          (submitted (SetLtv c ltv).1).length = 0)) := by
    intro borrowLimit loanAmount newLoan hb hl hn
    refine ⟨fun hd => ?_, fun hd => ?_, fun hd => ?_⟩
    · rw [SetLtv_of_zero hb hl hn hd]; rfl
    · rw [(SetLtv_of_pos hb hl hn hd).1]; rfl
    · rw [SetLtv_of_neg hb hl hn hd]
      obtain ⟨h1, h2⟩ := contraction_submitted c ltv (newLoan.Sub loanAmount)
      exact ⟨h2, fun hne => by omega⟩
  refine ⟨?_, ?_, hreads⟩
  · cases hb : c.borrowLimit with
    | error err => rw [SetLtv_of_borrowLimit_error ltv hb]; simp [submitted]
    | ok borrowLimit =>
      cases hl : c.loanAmount with
      | error err => rw [SetLtv_of_loanAmount_error ltv hb hl]; simp [submitted]
      | ok loanAmount =>
        obtain ⟨h0, h1, h2⟩ := hreads borrowLimit loanAmount _ hb hl
          (newLoanAmount_eq borrowLimit ltv)
        rcases lt_trichotomy
          (((⟨roundZ (borrowLimit.toRat * ltv.toRat / 100 * 10 ^ 16), -16⟩ : Decimal).Truncate
            6).toRat - loanAmount.toRat) 0 with h | h | h
        · by_cases hone : (submitted (SetLtv c ltv).1).length = 1
          · omega
          · have := (h2 h).2 hone
            omega
        · have := h0 h
          omega
        · have := h1 h
          omega
  · rintro (h | h)
    · cases hb : c.borrowLimit with
      | error err => rw [SetLtv_of_borrowLimit_error ltv hb]; rfl
      | ok borrowLimit => exact absurd hb (h borrowLimit)
    · cases hb : c.borrowLimit with
      | error err => rw [SetLtv_of_borrowLimit_error ltv hb]; rfl
      | ok borrowLimit =>
        cases hl : c.loanAmount with
        | error err => rw [SetLtv_of_loanAmount_error ltv hb hl]; rfl
        | ok loanAmount => exact absurd hl (h loanAmount)

/-- The statement of `SetLtv_submitted_count` at Scenario A (one submission) and at Scenario B
with a balance of 100 (none). -/
theorem SetLtv_submitted_count_witness :
    (submitted (SetLtv (Chain.answering ⟨1000, 0⟩ ⟨600, 0⟩ ⟨12, -1⟩ ⟨200, 0⟩) ⟨75, 0⟩).1).length
      = 1 ∧
    (submitted (SetLtv (Chain.answering ⟨1000, 0⟩ ⟨900, 0⟩ ⟨12, -1⟩ ⟨100, 0⟩) ⟨75, 0⟩).1).length
      ≤ 1 :=
  ⟨((SetLtv_submitted_count (Chain.answering ⟨1000, 0⟩ ⟨600, 0⟩ ⟨12, -1⟩ ⟨200, 0⟩)
      ⟨75, 0⟩).2.2 ⟨1000, 0⟩ ⟨600, 0⟩ ⟨750000000, -6⟩ rfl rfl (by decide)).2.1
      (by norm_num [Decimal.toRat]),
    (SetLtv_submitted_count (Chain.answering ⟨1000, 0⟩ ⟨900, 0⟩ ⟨12, -1⟩ ⟨100, 0⟩)
      ⟨75, 0⟩).1⟩

/-- C9 fails as stated: in Scenario B with a balance of 100, `diff` is `-150`, not zero, and
`SetLtv` submits no transaction. -/
theorem SetLtv_nonzero_diff_without_submission :
    newLoanAmount ⟨1000, 0⟩ ⟨75, 0⟩ = some ⟨750000000, -6⟩ ∧
    ((⟨750000000, -6⟩ : Decimal).Sub ⟨900, 0⟩).toRat = -150 ∧
    ((⟨750000000, -6⟩ : Decimal).Sub ⟨900, 0⟩).Equal Decimal.Zero = false ∧
    (submitted
      (SetLtv (Chain.answering ⟨1000, 0⟩ ⟨900, 0⟩ ⟨12, -1⟩ ⟨100, 0⟩) ⟨75, 0⟩).1).length = 0 :=
  ⟨by decide, by norm_num [Decimal.toRat, Decimal.Sub, Decimal.RescalePair, Decimal.rescale],
    by decide, by decide⟩

/-! ## C10: the redeemed amount -/

/-- C10, as the code has it. For a positive amount to repay and a positive exchange rate,
`austToRepay` is the quotient rounded to 16 fractional digits (the library's `Div`) and then
truncated to 6.  Its value in stable asset exceeds the repayment by at most half a unit of
the sixteenth digit times the rate, does not exceed it when the exact quotient has at most 16
fractional digits, and falls short of it by less than 0.000001 times the rate. -/
theorem austToRepay_value (usttorepay exchangeRate : Decimal)
    (hu : 0 < usttorepay.toRat) (hr : 0 < exchangeRate.toRat) :
    ∃ aust, austToRepay usttorepay exchangeRate = some aust ∧
      aust.toRat = truncateTo 6 (roundTo 16 (usttorepay.toRat / exchangeRate.toRat)) ∧
      aust.toRat * exchangeRate.toRat
        ≤ usttorepay.toRat + exchangeRate.toRat * (1 / 2 / 10 ^ 16) ∧
      ((∃ m : ℤ, usttorepay.toRat / exchangeRate.toRat * 10 ^ 16 = m) →
        aust.toRat * exchangeRate.toRat ≤ usttorepay.toRat) ∧
      usttorepay.toRat - aust.toRat * exchangeRate.toRat
        < exchangeRate.toRat * (1 / 10 ^ 6) := by
  have hv := value_ne_zero_of_toRat_ne_zero hr.ne'
  have ha := austToRepay_eq usttorepay exchangeRate hv
  have hval := toRat_austToRepay ha
  have hx : 0 ≤ usttorepay.toRat / exchangeRate.toRat := div_nonneg hu.le hr.le
  have hxr : usttorepay.toRat / exchangeRate.toRat * exchangeRate.toRat = usttorepay.toRat :=
    div_mul_cancel₀ _ hr.ne'
  have h1 := abs_truncateTo_roundTo_sub_le (usttorepay.toRat / exchangeRate.toRat)
  have h2 := abs_roundTo_sub_le 16 (usttorepay.toRat / exchangeRate.toRat)
  have h3 := truncateTo_le_of_nonneg 6 (roundTo_nonneg 16 hx)
  rw [abs_le] at h1 h2
  refine ⟨_, ha, hval, ?_, ?_, ?_⟩
  · rw [hval]
    have : truncateTo 6 (roundTo 16 (usttorepay.toRat / exchangeRate.toRat))
        ≤ usttorepay.toRat / exchangeRate.toRat + 1 / 2 / 10 ^ 16 := by linarith [h2.2]
    calc _ ≤ (usttorepay.toRat / exchangeRate.toRat + 1 / 2 / 10 ^ 16) * exchangeRate.toRat :=
          mul_le_mul_of_nonneg_right this hr.le
      _ = usttorepay.toRat + exchangeRate.toRat * (1 / 2 / 10 ^ 16) := by
          rw [add_mul, hxr]; ring
  · rintro ⟨m, hm⟩
    rw [hval]
    rw [roundTo_of_int 16 _ m hm] at h3 ⊢
    calc _ ≤ usttorepay.toRat / exchangeRate.toRat * exchangeRate.toRat :=
          mul_le_mul_of_nonneg_right h3 hr.le
      _ = usttorepay.toRat := hxr
  · rw [hval]
    have : usttorepay.toRat / exchangeRate.toRat
        - truncateTo 6 (roundTo 16 (usttorepay.toRat / exchangeRate.toRat)) < 1 / 10 ^ 6 := by
      have e1 := h1.1
      have e2 := h2.1
      norm_num at e1 e2 ⊢
      linarith
    have hm := mul_lt_mul_of_pos_right this hr
    rw [sub_mul, hxr] at hm
    calc _ < 1 / 10 ^ 6 * exchangeRate.toRat := hm
      _ = exchangeRate.toRat * (1 / 10 ^ 6) := by ring

/-- The input of Scenario B satisfies the hypotheses of `austToRepay_value`: 150 to repay at
the rate 1.2 give 125, worth exactly 150. -/
theorem austToRepay_value_witness :
    (0 : ℚ) < (⟨150000000, -6⟩ : Decimal).toRat ∧ (0 : ℚ) < (⟨12, -1⟩ : Decimal).toRat ∧
    austToRepay ⟨150000000, -6⟩ ⟨12, -1⟩ = some ⟨125000000, -6⟩ ∧
    ∃ aust, austToRepay ⟨150000000, -6⟩ ⟨12, -1⟩ = some aust ∧
      (⟨150000000, -6⟩ : Decimal).toRat - aust.toRat * (⟨12, -1⟩ : Decimal).toRat
        < (⟨12, -1⟩ : Decimal).toRat * (1 / 10 ^ 6) := by
  obtain ⟨aust, h1, -, -, -, h5⟩ :=
    austToRepay_value ⟨150000000, -6⟩ ⟨12, -1⟩ (by norm_num [Decimal.toRat])
      (by norm_num [Decimal.toRat])
  exact ⟨by norm_num [Decimal.toRat], by norm_num [Decimal.toRat], by decide, aust, h1, h5⟩

/-- C10 fails as stated: with a limit of 1000, a loan of 756, a target of 75 and the exchange
rate 1.200000000000000001, `SetLtv` repays 6 and redeems 5.000000 yield tokens, worth
6.000000000000000005, more than the repayment. -/
theorem austToRepay_exceeds_repayment :
    SetLtv (Chain.answering ⟨1000, 0⟩ ⟨756, 0⟩ ⟨1200000000000000001, -18⟩ ⟨200, 0⟩) ⟨75, 0⟩
      = ([.SetLtv ⟨75, 0⟩, .BorrowLimit, .BorrowerInfo, .EpochState, .Balance,
          .ExecuteAndWaitFor [.RedeemAUST ⟨5000000, -6⟩, .RepayStable ⟨6000000, -6⟩]],
        .ok ()) ∧
    austToRepay ⟨6000000, -6⟩ ⟨1200000000000000001, -18⟩ = some ⟨5000000, -6⟩ ∧
    (⟨6000000, -6⟩ : Decimal).toRat = 6 ∧
    (⟨6000000, -6⟩ : Decimal).toRat
      < (⟨5000000, -6⟩ : Decimal).toRat * (⟨1200000000000000001, -18⟩ : Decimal).toRat :=
  ⟨by decide, by decide, by norm_num [Decimal.toRat], by norm_num [Decimal.toRat]⟩

end AnchorHodler
